import Mathlib

/-!
Verification development for the react-konva shape editor
(KonvaApp.ts: useKonvaApp hook, and KonvaShapeEditor.tsx: button bar).

The engine state is embedded shallowly: positions and rotations are exact
rationals, node attributes (position, rotation, draggable) live directly on
the shape record, and a shape's render parent is tracked by its `groupId`
field (the source keeps them in sync: every reparenting `group.remove()` /
`add()` is paired with a `groupId` update).  Konva's trigonometry is
abstracted by a `Trig` record of cosine/sine-in-degrees functions so that
the development stays executable; theorems that need the rotation-0 facts
take `cosD 0 = 1` and `sinD 0 = 0` as hypotheses, which the real functions
satisfy.
-/

namespace Konva

/-- A 2D point, as the `{x, y}` objects of the source. -/
structure Pt where
  x : ℚ
  y : ℚ
deriving DecidableEq

/-- Cosine/sine on degrees (the source converts degrees to radians and calls
`Math.cos` / `Math.sin`; `cosD θ` stands for `Math.cos(θ·π/180)`). -/
structure Trig where
  cosD : ℚ → ℚ
  sinD : ℚ → ℚ

/-- Konva's parent transform applied to a child point: the parent group at
angle `deg` rotates the local point (translate-then-rotate order). -/
def rotByDeg (T : Trig) (deg : ℚ) (p : Pt) : Pt :=
  ⟨T.cosD deg * p.x - T.sinD deg * p.y,
   T.sinD deg * p.x + T.cosD deg * p.y⟩

/-- Shape geometry: `type` tag plus the node's size attributes
(`width`/`height` for a `Konva.Rect`, `radius` for a `Konva.Circle`). -/
inductive SGeom where
  | rectangle (width height : ℚ)
  | circle (radius : ℚ)
deriving DecidableEq

/-- A `ShapeData` record together with its node's transform attributes.
`groupId` is `none` when the shape's wrapper group is parented directly to
the layer (the canvas root). -/
structure Shape where
  id : Nat
  geom : SGeom
  pos : Pt
  rot : ℚ
  draggable : Bool
  groupId : Option Nat
deriving DecidableEq

/-- A `GroupData` record: the Konva group's transform and its invisible
background rectangle (`backgroundNode`) position and size. -/
structure Group where
  id : Nat
  pos : Pt
  rot : ℚ
  bgPos : Pt
  bgW : ℚ
  bgH : ℚ
deriving DecidableEq

/-- The hook's state: `shapes`, `groups`, `selectedIds`, `hoveredId`.
`nextId` models the id generator (the source uses `Date.now()` strings;
here ids are naturals handed out in order). -/
structure EState where
  shapes : List Shape
  groups : List Group
  selectedIds : List Nat
  hoveredId : Option Nat
  nextId : Nat
deriving DecidableEq

/-- `node.getAbsolutePosition()`: a shape inside a group gets the group's
translate-then-rotate transform applied; a root shape's absolute position
is its own position (the per-shape wrapper group carries no transform). -/
def getAbsPos (T : Trig) (groups : List Group) (sh : Shape) : Pt :=
  match sh.groupId with
  | none => sh.pos
  | some gid =>
    match groups.find? (fun g => g.id = gid) with
    | some g => ⟨g.pos.x + (rotByDeg T g.rot sh.pos).x,
                 g.pos.y + (rotByDeg T g.rot sh.pos).y⟩
    | none => sh.pos

/-- `node.getAbsoluteRotation()`: rotations along the parent chain add up. -/
def getAbsRot (groups : List Group) (sh : Shape) : ℚ :=
  match sh.groupId with
  | none => sh.rot
  | some gid =>
    match groups.find? (fun g => g.id = gid) with
    | some g => g.rot + sh.rot
    | none => sh.rot

/-- The alert message of `createGroup` when fewer than 2 ids are selected. -/
def errSelectAtLeast2 : String := "Please select at least 2 shapes to group"

/-- The alert message when every implicated shape already belongs to the
single selected group. -/
def errAlreadyInGroup : String := "All selected shapes are already in this group"

/-- The alert message of the new-group path when fewer than 2 ungrouped
shapes are selected. -/
def errAtLeast2Ungrouped : String := "Please select at least 2 ungrouped shapes to create a new group"

/-- The alert message of `ungroup` when the selection is not a single id. -/
def errSelectOneGroup : String := "Please select one group to ungroup"

/-- The alert message of `ungroup` when the selected id is not a group. -/
def errNotAGroup : String := "Selected item is not a group"

/-- `handleShapeClick(id, isShiftKey)`: a click on a grouped shape targets
its group id; otherwise the clicked id itself.  Plain click replaces the
selection, shift-click toggles membership. -/
def handleShapeClick (s : EState) (id : Nat) (isShiftKey : Bool) : EState :=
  match s.shapes.find? (fun sh => sh.id = id) with
  | some sh =>
    match sh.groupId with
    | some gid =>
      if isShiftKey = false then
        { s with selectedIds := [gid] }
      else if s.selectedIds.contains gid then
        { s with selectedIds := s.selectedIds.filter (fun x => x ≠ gid) }
      else
        { s with selectedIds := s.selectedIds ++ [gid] }
    | none =>
      if isShiftKey then
        if s.selectedIds.contains id then
          { s with selectedIds := s.selectedIds.filter (fun x => x ≠ id) }
        else
          { s with selectedIds := s.selectedIds ++ [id] }
      else
        { s with selectedIds := [id] }
  | none =>
    if isShiftKey then
      if s.selectedIds.contains id then
        { s with selectedIds := s.selectedIds.filter (fun x => x ≠ id) }
      else
        { s with selectedIds := s.selectedIds ++ [id] }
    else
      { s with selectedIds := [id] }

/-- The stage click handler: a click that hits only the stage clears the
selection. -/
def stageClick (s : EState) : EState :=
  { s with selectedIds := [] }

/-- `setHoveredId` from the mouseenter/mouseleave handlers. -/
def setHover (s : EState) (h : Option Nat) : EState :=
  { s with hoveredId := h }

/-- `addRectangle`: a 100×50 rectangle at a random position (taken here as
the parameters `px`, `py`), draggable, ungrouped.  The random fill color is
not modelled (no claim mentions it). -/
def addRectangle (s : EState) (px py : ℚ) : EState :=
  { s with
    shapes := s.shapes ++ [⟨s.nextId, SGeom.rectangle 100 50, ⟨px, py⟩, 0, true, none⟩],
    nextId := s.nextId + 1 }

/-- `addCircle`: a radius-50 circle at a random position, draggable,
ungrouped. -/
def addCircle (s : EState) (px py : ℚ) : EState :=
  { s with
    shapes := s.shapes ++ [⟨s.nextId, SGeom.circle 50, ⟨px, py⟩, 0, true, none⟩],
    nextId := s.nextId + 1 }

/-- `clearAll`: destroys every shape and group and resets selection and
hover. -/
def clearAll (s : EState) : EState :=
  { s with shapes := [], groups := [], selectedIds := [], hoveredId := none }

/-- `Number.MAX_VALUE`, exactly. -/
def jsMaxValue : ℚ := 2 ^ 1024 - 2 ^ 971

/-- `Number.MIN_VALUE`: the smallest positive double, `2⁻¹⁰⁷⁴`.  The source
uses it as the initial value of its running maxima. -/
def jsMinValue : ℚ := 1 / 2 ^ 1074

/-- The boundary points one shape contributes in `updateGroupBoundingBox`
(lines 379–444): the four padded corners for a rectangle; four cardinal and
four diagonal points for a circle, the diagonals at per-axis offset
`(radius+10) * 0.7071`. -/
def shapeOutlinePoints (sh : Shape) : List Pt :=
  match sh.geom with
  | SGeom.rectangle w h =>
    [⟨sh.pos.x - w / 2 - 10, sh.pos.y - h / 2 - 10⟩,
     ⟨sh.pos.x + w / 2 + 10, sh.pos.y - h / 2 - 10⟩,
     ⟨sh.pos.x - w / 2 - 10, sh.pos.y + h / 2 + 10⟩,
     ⟨sh.pos.x + w / 2 + 10, sh.pos.y + h / 2 + 10⟩]
  | SGeom.circle r =>
    let totalRadius := r + 10
    let diagonalDist := totalRadius * (7071 / 10000)
    [⟨sh.pos.x - totalRadius, sh.pos.y⟩,
     ⟨sh.pos.x + totalRadius, sh.pos.y⟩,
     ⟨sh.pos.x, sh.pos.y - totalRadius⟩,
     ⟨sh.pos.x, sh.pos.y + totalRadius⟩,
     ⟨sh.pos.x - diagonalDist, sh.pos.y - diagonalDist⟩,
     ⟨sh.pos.x + diagonalDist, sh.pos.y - diagonalDist⟩,
     ⟨sh.pos.x - diagonalDist, sh.pos.y + diagonalDist⟩,
     ⟨sh.pos.x + diagonalDist, sh.pos.y + diagonalDist⟩]

/-- `Math.min` on rationals (NaN never arises in this model). -/
def qmin (a b : ℚ) : ℚ := if a ≤ b then a else b

/-- `Math.max` on rationals. -/
def qmax (a b : ℚ) : ℚ := if a ≤ b then b else a

/-- Accumulator of the source's `minX`/`minY`/`maxX`/`maxY` running bounds. -/
structure Bnds where
  minX : ℚ
  minY : ℚ
  maxX : ℚ
  maxY : ℚ
deriving DecidableEq

/-- `updateGroupBoundingBox(group, groupShapes)`: collect every member's
outline points, fold min/max starting from `Number.MAX_VALUE` (minima) and
`Number.MIN_VALUE` (maxima), and store the result in the background
rectangle. -/
def updateGroupBoundingBox (g : Group) (groupShapes : List Shape) : Group :=
  let points := groupShapes.foldl (fun acc sh => acc ++ shapeOutlinePoints sh) []
  let b := points.foldl
    (fun (a : Bnds) p => ⟨qmin a.minX p.x, qmin a.minY p.y, qmax a.maxX p.x, qmax a.maxY p.y⟩)
    ⟨jsMaxValue, jsMaxValue, jsMinValue, jsMinValue⟩
  { g with bgPos := ⟨b.minX, b.minY⟩, bgW := b.maxX - b.minX, bgH := b.maxY - b.minY }

/-- Replace the first element whose key matches, as the source's
`findIndex` + index assignment does. -/
def replaceByKey {α : Type} (key : α → Nat) : List α → α → List α
  | [], _ => []
  | t :: ts, a => if key t = key a then a :: ts else t :: replaceByKey key ts a

/-- A shape record as seen through the two aliased arrays of
`addShapesToGroup`: `sh` is the record in `updatedShapes` (and the shared
mutable node state), while `staleGid` is the `groupId` still seen through
the captured `shapes` array — the dissolve branch mutates shared records in
place (both views change), whereas the move branch replaces the entry of
`updatedShapes` with a fresh record (the stale view keeps the old value). -/
structure WShape where
  sh : Shape
  staleGid : Option Nat
deriving DecidableEq

/-- The dissolve branch of `addShapesToGroup` applied to one member of a
source group: store its absolute transform, detach it to the root, and
re-enable dragging (an in-place mutation, visible through both views). -/
def detachW (T : Trig) (curGroups : List Group) (w : WShape) : WShape :=
  ⟨{ w.sh with
      pos := getAbsPos T curGroups w.sh,
      rot := getAbsRot curGroups w.sh,
      draggable := true,
      groupId := none }, none⟩

/-- One iteration of the `shapesToAdd.forEach` loop of `addShapesToGroup`:
if the shape still belongs to another group whose (stale) membership count
is ≤ 2, dissolve that group first; then capture the shape's absolute
transform, convert it into the target group's local space (inverse-rotating
only when the target's rotation is nonzero), reparent it, and disable its
dragging. -/
def asgStep (T : Trig) (origGroups : List Group) (target : Group)
    (acc : List WShape × List Group) (sid : Nat) : List WShape × List Group :=
  match acc.1.find? (fun w => w.sh.id = sid) with
  | none => acc
  | some w0 =>
    let step1 : List WShape × List Group :=
      match w0.staleGid with
      | none => acc
      | some oldGid =>
        match origGroups.find? (fun g => g.id = oldGid) with
        | none => acc
        | some oldGroup =>
          if (acc.1.filter (fun v => v.staleGid = some oldGroup.id)).length ≤ 2 then
            (acc.1.map (fun v => if v.sh.groupId = some oldGroup.id then detachW T acc.2 v else v),
             acc.2.filter (fun g => g.id ≠ oldGroup.id))
          else acc
    match step1.1.find? (fun w => w.sh.id = sid) with
    | none => step1
    | some w1 =>
      let globalPos := getAbsPos T step1.2 w1.sh
      let globalRot := getAbsRot step1.2 w1.sh
      let dx0 := globalPos.x - target.pos.x
      let dy0 := globalPos.y - target.pos.y
      let d : Pt :=
        if target.rot ≠ 0 then
          ⟨T.cosD (-target.rot) * dx0 - T.sinD (-target.rot) * dy0,
           T.sinD (-target.rot) * dx0 + T.cosD (-target.rot) * dy0⟩
        else ⟨dx0, dy0⟩
      let moved : Shape :=
        { w1.sh with pos := d, rot := globalRot - target.rot,
                     draggable := false, groupId := some target.id }
      (replaceByKey (fun w => w.sh.id) step1.1 ⟨moved, w1.staleGid⟩, step1.2)

/-- `addShapesToGroup(targetGroup, shapesToAdd)`: run the per-shape loop,
commit the updated shapes, and recompute the target group's background over
its now-current members. -/
def addShapesToGroup (T : Trig) (s : EState) (target : Group) (toAddIds : List Nat) : EState :=
  let res := toAddIds.foldl (asgStep T s.groups target)
    (s.shapes.map (fun sh => ⟨sh, sh.groupId⟩), s.groups)
  let newShapes := res.1.map (fun w => w.sh)
  let members := newShapes.filter (fun sh => sh.groupId = some target.id)
  { s with
    shapes := newShapes,
    groups := res.2.map (fun g => if g.id = target.id then updateGroupBoundingBox g members else g) }

/-- The ids that resolve to existing groups among the selection
(`selectedGroups`). -/
def selectedGroupsOf (s : EState) : List Group :=
  s.selectedIds.filterMap (fun id => s.groups.find? (fun g => g.id = id))

/-- The shapes implicated by the selection: selected directly, or members
of a selected group (`selectedShapes`). -/
def selectedShapesOf (s : EState) : List Shape :=
  s.shapes.filter (fun sh =>
    s.selectedIds.contains sh.id ||
      (match sh.groupId with
       | some gid => s.selectedIds.contains gid
       | none => false))

/-- The selected shapes that are not in any group (`shapesToGroup`). -/
def shapesToGroupOf (s : EState) : List Shape :=
  s.shapes.filter (fun sh => s.selectedIds.contains sh.id ∧ sh.groupId = none)

/-- Sum of the x coordinates of a list of shapes (the `reduce` of
`createGroup`). -/
def sumX (l : List Shape) : ℚ := l.foldl (fun a sh => a + sh.pos.x) 0

/-- Sum of the y coordinates of a list of shapes. -/
def sumY (l : List Shape) : ℚ := l.foldl (fun a sh => a + sh.pos.y) 0

/-- The new group's x position: arithmetic mean of the members' current x
positions. -/
def cgAvgX (s : EState) : ℚ := sumX (shapesToGroupOf s) / ((shapesToGroupOf s).length : ℚ)

/-- The new group's y position: arithmetic mean of the members' current y
positions. -/
def cgAvgY (s : EState) : ℚ := sumY (shapesToGroupOf s) / ((shapesToGroupOf s).length : ℚ)

/-- The per-member effect of the new-group path of `createGroup`: local
position `absolutePos - mean`, dragging disabled, owned by the new group
(whose id will be `s.nextId`). -/
def cgMove (T : Trig) (s : EState) (sh : Shape) : Shape :=
  { sh with
    pos := ⟨(getAbsPos T s.groups sh).x - cgAvgX s, (getAbsPos T s.groups sh).y - cgAvgY s⟩,
    draggable := false, groupId := some s.nextId }

/-- The per-shape effect of `ungroup` on a member: absolute transform at the
root, dragging re-enabled, group id cleared. -/
def ugDetach (T : Trig) (groups : List Group) (g : Group) (sh : Shape) : Shape :=
  { sh with pos := getAbsPos T groups sh, rot := sh.rot + g.rot,
            draggable := true, groupId := none }

/-- One step of the inline bounds loop of `createGroup` (lines 766–788):
each member contributes its own padded axis-aligned extent (corners for a
rectangle, cardinal extremes for a circle). -/
def boundsStep (a : Bnds) (sh : Shape) : Bnds :=
  match sh.geom with
  | SGeom.rectangle w h =>
    ⟨qmin a.minX (sh.pos.x - w / 2 - 10), qmin a.minY (sh.pos.y - h / 2 - 10),
     qmax a.maxX (sh.pos.x + w / 2 + 10), qmax a.maxY (sh.pos.y + h / 2 + 10)⟩
  | SGeom.circle r =>
    ⟨qmin a.minX (sh.pos.x - r - 10), qmin a.minY (sh.pos.y - r - 10),
     qmax a.maxX (sh.pos.x + r + 10), qmax a.maxY (sh.pos.y + r + 10)⟩

/-- The new-group path of `createGroup` (lines 657–822): require at least 2
ungrouped selected shapes; create a group at the mean position with rotation
0; give each member local position `absolutePos - mean` and disable its
dragging; compute the background from the members' padded extents at their
new (relative) positions; select the new group. -/
def createGroupNew (T : Trig) (s : EState) : EState × Option String :=
  let shapesToGroup := shapesToGroupOf s
  if shapesToGroup.length < 2 then
    (s, some errAtLeast2Ungrouped)
  else
    let gid := s.nextId
    let avgX := cgAvgX s
    let avgY := cgAvgY s
    let newShapes := shapesToGroup.foldl
      (fun acc sh => replaceByKey (fun t => t.id) acc (cgMove T s sh))
      s.shapes
    let b := shapesToGroup.foldl
      (fun (a : Bnds) sh0 =>
        boundsStep a ((newShapes.find? (fun t => t.id = sh0.id)).getD sh0))
      ⟨jsMaxValue, jsMaxValue, jsMinValue, jsMinValue⟩
    let g : Group := ⟨gid, ⟨avgX, avgY⟩, 0, ⟨b.minX, b.minY⟩, b.maxX - b.minX, b.maxY - b.minY⟩
    ({ s with shapes := newShapes, groups := s.groups ++ [g],
              selectedIds := [gid], nextId := s.nextId + 1 }, none)

/-- `createGroup()`: reject selections of fewer than 2 ids; when exactly one
existing group is implicated and the selection implicates any shape at all,
merge into it (the source has two consecutive branches with identical
bodies, lines 609–631 and 634–655; their guards are combined here), erroring
when there is nothing new to add; otherwise create a new group. -/
def createGroup (T : Trig) (s : EState) : EState × Option String :=
  let selectedGroups := selectedGroupsOf s
  let selectedShapes := selectedShapesOf s
  if s.selectedIds.length < 2 then
    (s, some errSelectAtLeast2)
  else
    match selectedGroups with
    | [target] =>
      if (∃ sh ∈ selectedShapes, sh.groupId ≠ some target.id) ∨ selectedShapes ≠ [] then
        let shapesToAdd := selectedShapes.filter (fun sh => sh.groupId ≠ some target.id)
        if shapesToAdd.isEmpty then
          (s, some errAlreadyInGroup)
        else
          let s1 := addShapesToGroup T s target (shapesToAdd.map (fun sh => sh.id))
          ({ s1 with selectedIds := [target.id] }, none)
      else
        createGroupNew T s
    | _ => createGroupNew T s

/-- `ungroup()`: require the selection to be exactly one existing group;
give every member its absolute transform back at the root, re-enable its
dragging, destroy the group, and select the released shapes. -/
def ungroup (T : Trig) (s : EState) : EState × Option String :=
  match s.selectedIds with
  | [gid] =>
    match s.groups.find? (fun g => g.id = gid) with
    | none => (s, some errNotAGroup)
    | some group =>
      let groupShapes := s.shapes.filter (fun sh => sh.groupId = some gid)
      let newShapes := groupShapes.foldl
        (fun acc sh => replaceByKey (fun t => t.id) acc (ugDetach T s.groups group sh))
        s.shapes
      ({ s with shapes := newShapes,
                groups := s.groups.filter (fun g => g.id ≠ gid),
                selectedIds := groupShapes.map (fun sh => sh.id) }, none)
  | _ => (s, some errSelectOneGroup)

/-- The state of `KonvaShapeEditor`: the engine state plus the
`groupButtonText` React state. -/
structure UIState where
  app : EState
  buttonText : String
deriving DecidableEq

/-- The label the registered update-group-button callback computes from the
current selection (KonvaShapeEditor.tsx lines 36–53): "Ungroup" iff exactly
one selected id resolves to a group. -/
def computeGroupButtonLabel (s : EState) : String :=
  match s.selectedIds with
  | [id0] => if s.groups.any (fun g => g.id = id0) then "Ungroup" else "Create Group"
  | _ => "Create Group"

/-- `handleGroupButton` (KonvaShapeEditor.tsx lines 70–82): if exactly one
group is selected, ungroup and set the label to "Create Group"; otherwise
call `createGroup` and *unconditionally* set the label to "Ungroup" — even
when `createGroup` rejects the selection. -/
def handleGroupButton (T : Trig) (u : UIState) : UIState :=
  match u.app.selectedIds with
  | [id0] =>
    if u.app.groups.any (fun g => g.id = id0) then
      ⟨(ungroup T u.app).1, "Create Group"⟩
    else
      ⟨(createGroup T u.app).1, "Ungroup"⟩
  | _ => ⟨(createGroup T u.app).1, "Ungroup"⟩

/-- Squared distance between two points. -/
def sqDistPt (p q : Pt) : ℚ := (p.x - q.x) ^ 2 + (p.y - q.y) ^ 2

/-- Well-formedness of an engine state: distinct ids; ids below the id
counter; every group has at least two members; every `groupId` points to a
live group; every selected shape id is ungrouped (selection never holds a
grouped shape's own id — clicking such a shape selects its group instead);
no duplicate selection entries. -/
def WF (s : EState) : Prop :=
  (s.shapes.map (fun sh => sh.id)).Nodup ∧
  (s.groups.map (fun g => g.id)).Nodup ∧
  (∀ sh ∈ s.shapes, ∀ g ∈ s.groups, sh.id ≠ g.id) ∧
  (∀ sh ∈ s.shapes, sh.id < s.nextId) ∧
  (∀ g ∈ s.groups, g.id < s.nextId) ∧
  (∀ g ∈ s.groups, 2 ≤ (s.shapes.filter (fun t => t.groupId = some g.id)).length) ∧
  (∀ sh ∈ s.shapes, ∀ gid ∈ sh.groupId.toList, ∃ g ∈ s.groups, g.id = gid) ∧
  (∀ sh ∈ s.shapes, sh.id ∈ s.selectedIds → sh.groupId = none) ∧
  s.selectedIds.Nodup

instance (s : EState) : Decidable (WF s) := by
  unfold WF
  infer_instance

/-- The group-size invariant of the spec: every live group has at least two
member shapes. -/
def groupsMin2 (s : EState) : Prop :=
  ∀ g ∈ s.groups, 2 ≤ (s.shapes.filter (fun t => t.groupId = some g.id)).length

/-- One user-driven operation of the editor: the five exposed engine
operations plus the pointer interactions that drive selection and hover. -/
inductive Step : EState → EState → Prop where
  | addRect (s : EState) (px py : ℚ) : Step s (addRectangle s px py)
  | addCirc (s : EState) (px py : ℚ) : Step s (addCircle s px py)
  | clickShape (s : EState) (id : Nat) (shift : Bool) : Step s (handleShapeClick s id shift)
  | clickStage (s : EState) : Step s (stageClick s)
  | hover (s : EState) (h : Option Nat) : Step s (setHover s h)
  | group (s : EState) (T : Trig) : Step s (createGroup T s).1
  | ungrp (s : EState) (T : Trig) : Step s (ungroup T s).1
  | clear (s : EState) : Step s (clearAll s)

/-- The empty initial state of the hook. -/
def initState : EState := ⟨[], [], [], none, 0⟩

/-- States reachable from the initial state by user operations. -/
inductive Reach : EState → Prop where
  | start : Reach initState
  | step {s s' : EState} : Reach s → Step s s' → Reach s'

/-- The per-shape effect of `addShapesToGroup` on a shape that is currently
ungrouped: its absolute transform is its own, so it lands at
`pos - target.pos` (inverse-rotated when the target is rotated), with local
rotation `rot - target.rot`, dragging disabled, owned by the target. -/
def asgMoveUngrouped (T : Trig) (target : Group) (sh : Shape) : Shape :=
  let dx0 := sh.pos.x - target.pos.x
  let dy0 := sh.pos.y - target.pos.y
  let d : Pt :=
    if target.rot ≠ 0 then
      ⟨T.cosD (-target.rot) * dx0 - T.sinD (-target.rot) * dy0,
       T.sinD (-target.rot) * dx0 + T.cosD (-target.rot) * dy0⟩
    else ⟨dx0, dy0⟩
  { sh with pos := d, rot := sh.rot - target.rot, draggable := false, groupId := some target.id }

/-- A trigonometry instance agreeing with the real functions at angle 0
(used to instantiate witnesses). -/
def t0 : Trig := ⟨fun _ => 1, fun _ => 0⟩

/-- Demo state: one rectangle added to the empty editor. -/
def demo1 : EState := addRectangle initState 0 0

/-- Demo state: a second rectangle added. -/
def demo2 : EState := addRectangle demo1 30 40

/-- Demo state: the first rectangle clicked (selection `[0]`). -/
def demo3 : EState := handleShapeClick demo2 0 false

/-- Demo state: the second rectangle shift-clicked (selection `[0, 1]`). -/
def demo4 : EState := handleShapeClick demo3 1 true

/-- Demo state: both rectangles grouped. -/
def demo5 : EState := (createGroup t0 demo4).1

/-- A group whose background is about to be recomputed (for the bounding-box
evaluation). -/
def g7 : Group := ⟨0, ⟨0, 0⟩, 0, ⟨0, 0⟩, 0, 0⟩

/-- A member rectangle with all-negative local coordinates. -/
def m7a : Shape := ⟨1, SGeom.rectangle 100 50, ⟨-1000, -1000⟩, 0, false, some 0⟩

/-- A second member rectangle with all-negative local coordinates. -/
def m7b : Shape := ⟨2, SGeom.rectangle 100 50, ⟨-900, -900⟩, 0, false, some 0⟩

/-- A circle shape of the default radius 50 at the origin. -/
def c8 : Shape := ⟨3, SGeom.circle 50, ⟨0, 0⟩, 0, true, none⟩

/-- A state with a single ungrouped shape selected. -/
def s9 : EState := ⟨[⟨0, SGeom.rectangle 100 50, ⟨20, 30⟩, 0, true, none⟩], [], [0], none, 1⟩

/-- The editor UI over `s9`, currently showing the correct label. -/
def u9 : UIState := ⟨s9, "Create Group"⟩

/-- A state holding two 2-member groups, both selected. -/
def s10 : EState :=
  ⟨[⟨0, SGeom.rectangle 100 50, ⟨0, 0⟩, 0, false, some 4⟩,
    ⟨1, SGeom.rectangle 100 50, ⟨10, 0⟩, 0, false, some 4⟩,
    ⟨2, SGeom.circle 50, ⟨0, 0⟩, 0, false, some 5⟩,
    ⟨3, SGeom.circle 50, ⟨10, 0⟩, 0, false, some 5⟩],
   [⟨4, ⟨100, 100⟩, 0, ⟨0, 0⟩, 130, 70⟩,
    ⟨5, ⟨300, 100⟩, 0, ⟨0, 0⟩, 130, 130⟩],
   [4, 5], none, 6⟩

/-- A state holding one 2-member group and one free shape, both selected. -/
def s4w : EState :=
  ⟨[⟨0, SGeom.rectangle 100 50, ⟨0, 0⟩, 0, false, some 10⟩,
    ⟨1, SGeom.rectangle 100 50, ⟨10, 0⟩, 0, false, some 10⟩,
    ⟨2, SGeom.circle 50, ⟨50, 50⟩, 0, true, none⟩],
   [⟨10, ⟨100, 100⟩, 0, ⟨0, 0⟩, 130, 70⟩],
   [2, 10], none, 11⟩

/-- A state with a 2-member group selected together with a dangling id, so
that every implicated shape is already a member of the selected group. -/
def s3b : EState :=
  ⟨[⟨0, SGeom.rectangle 100 50, ⟨0, 0⟩, 0, false, some 4⟩,
    ⟨1, SGeom.rectangle 100 50, ⟨10, 0⟩, 0, false, some 4⟩],
   [⟨4, ⟨100, 100⟩, 0, ⟨0, 0⟩, 130, 70⟩],
   [4, 9], none, 5⟩

/-- A state whose selection holds two dangling ids. -/
def s3c : EState := ⟨[], [], [5, 6], none, 7⟩

/-- A state with one shape that belongs to group 7. -/
def s6g : EState := ⟨[⟨1, SGeom.rectangle 100 50, ⟨0, 0⟩, 0, false, some 7⟩], [], [], none, 8⟩

/-- C6 — clicking a shape that belongs to a group targets the group id:
a plain click replaces the selection with exactly the group id, a shift
click toggles the group id in the selection; for an ungrouped shape, or for
an id that is not a shape (in particular a group clicked directly), the
same rules apply to the clicked id itself. -/
theorem claim6_click_selects_group (s : EState) (id : Nat) :
    (∀ sh G, s.shapes.find? (fun t => t.id = id) = some sh → sh.groupId = some G →
      (handleShapeClick s id false).selectedIds = [G] ∧
      (handleShapeClick s id true).selectedIds =
        (if s.selectedIds.contains G then s.selectedIds.filter (fun x => x ≠ G)
         else s.selectedIds ++ [G])) ∧
    (∀ sh, s.shapes.find? (fun t => t.id = id) = some sh → sh.groupId = none →
      (handleShapeClick s id false).selectedIds = [id] ∧
      (handleShapeClick s id true).selectedIds =
        (if s.selectedIds.contains id then s.selectedIds.filter (fun x => x ≠ id)
         else s.selectedIds ++ [id])) ∧
    (s.shapes.find? (fun t => t.id = id) = none →
      (handleShapeClick s id false).selectedIds = [id] ∧
      (handleShapeClick s id true).selectedIds =
        (if s.selectedIds.contains id then s.selectedIds.filter (fun x => x ≠ id)
         else s.selectedIds ++ [id])) := by
  refine ⟨?_, ?_, ?_⟩
  · intro sh G hfind hg
    refine ⟨by simp [handleShapeClick, hfind, hg], ?_⟩
    simp only [handleShapeClick, hfind, hg]
    simp only [show (true = false) = False by simp, if_false]
    split <;> simp_all
  · intro sh hfind hg
    refine ⟨by simp [handleShapeClick, hfind, hg], ?_⟩
    simp only [handleShapeClick, hfind, hg]
    simp only [if_true]
    split <;> simp_all
  · intro hfind
    refine ⟨by simp [handleShapeClick, hfind], ?_⟩
    simp only [handleShapeClick, hfind]
    simp only [if_true]
    split <;> simp_all

/-- Witness for C6: a plain click on the grouped shape 1 selects its group
7; a plain click on the ungrouped shape 0 selects the shape itself. -/
theorem claim6_witness :
    (handleShapeClick s6g 1 false).selectedIds = [7] ∧
    (handleShapeClick s9 0 false).selectedIds = [0] := by
  constructor
  · exact ((claim6_click_selects_group s6g 1).1
      ⟨1, SGeom.rectangle 100 50, ⟨0, 0⟩, 0, false, some 7⟩ 7 rfl rfl).1
  · exact ((claim6_click_selects_group s9 0).2.1
      ⟨0, SGeom.rectangle 100 50, ⟨20, 30⟩, 0, true, none⟩ rfl rfl).1

/-- C7 — the source initializes its running maxima with `Number.MIN_VALUE`,
the smallest *positive* double, instead of a smallest-value sentinel; when
every member point has negative coordinates the computed background is not
the members' bounding box: for two rectangles whose padded outline spans
x ∈ [-1060, -840], the stored width is `1060 + Number.MIN_VALUE` rather
than the claimed `maxX - minX = 220` (the minima side, initialized with
`Number.MAX_VALUE`, is still correct). -/
theorem claim7_bbox_min_value_bug :
    (updateGroupBoundingBox g7 [m7a, m7b]).bgPos = ⟨-1060, -1035⟩ ∧
    (updateGroupBoundingBox g7 [m7a, m7b]).bgW = 1060 + jsMinValue ∧
    (updateGroupBoundingBox g7 [m7a, m7b]).bgW ≠ (-840 : ℚ) - (-1060 : ℚ) := by
  refine ⟨?_, ?_, ?_⟩ <;>
    norm_num [updateGroupBoundingBox, g7, m7a, m7b, shapeOutlinePoints, qmin, qmax,
      jsMaxValue, jsMinValue, Pt.mk.injEq]

/-- Counterexample for C8: for the default circle (radius 50), not every
padded outline point lies at distance exactly `r + 10 = 60` from the
center — the four diagonal points lie at per-axis offset `60 · 0.7071`,
whose squared norm is `2 · (60 · 0.7071)² = 3599.930952 ≠ 3600`. -/
theorem claim8_counterexample :
    ∃ p ∈ shapeOutlinePoints c8, sqDistPt p c8.pos ≠ ((50 : ℚ) + 10) ^ 2 := by
  refine ⟨⟨(0 : ℚ) - (50 + 10) * (7071 / 10000), (0 : ℚ) - (50 + 10) * (7071 / 10000)⟩, ?_, ?_⟩
  · norm_num [shapeOutlinePoints, c8, Pt.mk.injEq]
  · norm_num [sqDistPt, c8]

/-- C8 (amended) — the circle sample consists of exactly 8 points: the 4
cardinal points at distance exactly `r + 10`, and 4 diagonal points at
per-axis offset `(r + 10) · 0.7071` (squared distance
`2 · ((r + 10) · 0.7071)²`, slightly less than `(r + 10)²`); the rectangle
sample is the 4 corners of a `(w + 2·10) × (h + 2·10)` box centered at the
shape's position. -/
theorem claim8_outline_points (i : Nat) (r w h px py rv : ℚ) (d : Bool) (gi : Option Nat) :
    shapeOutlinePoints ⟨i, SGeom.circle r, ⟨px, py⟩, rv, d, gi⟩ =
      [⟨px - (r + 10), py⟩, ⟨px + (r + 10), py⟩,
       ⟨px, py - (r + 10)⟩, ⟨px, py + (r + 10)⟩,
       ⟨px - (r + 10) * (7071 / 10000), py - (r + 10) * (7071 / 10000)⟩,
       ⟨px + (r + 10) * (7071 / 10000), py - (r + 10) * (7071 / 10000)⟩,
       ⟨px - (r + 10) * (7071 / 10000), py + (r + 10) * (7071 / 10000)⟩,
       ⟨px + (r + 10) * (7071 / 10000), py + (r + 10) * (7071 / 10000)⟩] ∧
    (List.map (fun p => sqDistPt p ⟨px, py⟩)
        ((shapeOutlinePoints ⟨i, SGeom.circle r, ⟨px, py⟩, rv, d, gi⟩).take 4)) =
      [(r + 10) ^ 2, (r + 10) ^ 2, (r + 10) ^ 2, (r + 10) ^ 2] ∧
    (List.map (fun p => sqDistPt p ⟨px, py⟩)
        ((shapeOutlinePoints ⟨i, SGeom.circle r, ⟨px, py⟩, rv, d, gi⟩).drop 4)) =
      [2 * ((r + 10) * (7071 / 10000)) ^ 2, 2 * ((r + 10) * (7071 / 10000)) ^ 2,
       2 * ((r + 10) * (7071 / 10000)) ^ 2, 2 * ((r + 10) * (7071 / 10000)) ^ 2] ∧
    shapeOutlinePoints ⟨i, SGeom.rectangle w h, ⟨px, py⟩, rv, d, gi⟩ =
      [⟨px - (w + 2 * 10) / 2, py - (h + 2 * 10) / 2⟩,
       ⟨px + (w + 2 * 10) / 2, py - (h + 2 * 10) / 2⟩,
       ⟨px - (w + 2 * 10) / 2, py + (h + 2 * 10) / 2⟩,
       ⟨px + (w + 2 * 10) / 2, py + (h + 2 * 10) / 2⟩] := by
  refine ⟨?_, ?_, ?_, ?_⟩ <;> simp [shapeOutlinePoints, sqDistPt, Pt.mk.injEq] <;> ring_nf <;> simp

/-- C9 — pressing the group button on a selection that is not one group
unconditionally sets the label to "Ungroup", even when `createGroup`
rejects the selection with an error and changes nothing: with a single
ungrouped shape selected, the state is unchanged, the displayed label
becomes "Ungroup", yet the label policy computed from the (unchanged)
selection is "Create Group". -/
theorem claim9_button_label_bug :
    handleGroupButton t0 u9 = ⟨s9, "Ungroup"⟩ ∧
    computeGroupButtonLabel s9 = "Create Group" := by
  exact ⟨rfl, rfl⟩

/-- C10 — a selection of exactly two ids that both resolve to existing
groups is rejected by `createGroup` with no state change: the merge branch
requires exactly one implicated group, and the new-group branch then finds
no ungrouped selected shapes. -/
theorem claim10_two_groups_rejected (T : Trig) (s : EState) (a b : Nat) (ga gb : Group)
    (hdisj : ∀ sh ∈ s.shapes, ∀ g ∈ s.groups, sh.id ≠ g.id)
    (hsel : s.selectedIds = [a, b])
    (ha : s.groups.find? (fun g => g.id = a) = some ga)
    (hb : s.groups.find? (fun g => g.id = b) = some gb) :
    createGroup T s = (s, some errAtLeast2Ungrouped) := by
  have hga : ga.id = a := by simpa using List.find?_some ha
  have hgb : gb.id = b := by simpa using List.find?_some hb
  have hma : ga ∈ s.groups := List.mem_of_find?_eq_some ha
  have hmb : gb ∈ s.groups := List.mem_of_find?_eq_some hb
  have hsg : selectedGroupsOf s = [ga, gb] := by
    simp [selectedGroupsOf, hsel, ha, hb]
  have hstg : shapesToGroupOf s = [] := by
    unfold shapesToGroupOf
    rw [List.filter_eq_nil_iff]
    intro sh hsh hp
    have hc : sh.id ∈ s.selectedIds := by simpa using (of_decide_eq_true hp).1
    rw [hsel] at hc
    rcases List.mem_pair.mp hc with h | h
    · exact hdisj sh hsh ga hma (h.trans hga.symm)
    · exact hdisj sh hsh gb hmb (h.trans hgb.symm)
  have hlen : ¬ s.selectedIds.length < 2 := by rw [hsel]; simp
  simp only [createGroup, hsg]
  rw [if_neg hlen]
  simp [createGroupNew, hstg]

/-- Witness for C10: a concrete state with two 2-member groups selected is
rejected with no state change. -/
theorem claim10_witness :
    createGroup t0 s10 = (s10, some errAtLeast2Ungrouped) := by
  exact claim10_two_groups_rejected t0 s10 4 5
    ⟨4, ⟨100, 100⟩, 0, ⟨0, 0⟩, 130, 70⟩
    ⟨5, ⟨300, 100⟩, 0, ⟨0, 0⟩, 130, 130⟩
    (by decide) rfl (by decide) (by decide)

/-- C3 — every user-facing precondition violation of `createGroup` or
`ungroup` reports an error and leaves the whole state (shapes, groups,
every shape's `groupId`/parent, selection, hover) unchanged: fewer than 2
selected ids; one implicated group with nothing new to add; otherwise fewer
than 2 ungrouped selected shapes; `ungroup` with a selection that is not a
single id; `ungroup` with a single id that is not a live group. -/
theorem claim3_precondition_no_state_change (T : Trig) (s : EState) :
    (s.selectedIds.length < 2 → createGroup T s = (s, some errSelectAtLeast2)) ∧
    (∀ target, 2 ≤ s.selectedIds.length → selectedGroupsOf s = [target] →
      selectedShapesOf s ≠ [] →
      (∀ sh ∈ selectedShapesOf s, sh.groupId = some target.id) →
      createGroup T s = (s, some errAlreadyInGroup)) ∧
    (2 ≤ s.selectedIds.length →
      (∀ target, selectedGroupsOf s = [target] → selectedShapesOf s = []) →
      (shapesToGroupOf s).length < 2 →
      createGroup T s = (s, some errAtLeast2Ungrouped)) ∧
    (s.selectedIds.length ≠ 1 → ungroup T s = (s, some errSelectOneGroup)) ∧
    (∀ gid, s.selectedIds = [gid] → s.groups.find? (fun g => g.id = gid) = none →
      ungroup T s = (s, some errNotAGroup)) := by
  refine ⟨?_, ?_, ?_, ?_, ?_⟩
  · intro h
    simp only [createGroup]
    rw [if_pos h]
  · intro target hlen hsg hne hall
    have hnlt : ¬ s.selectedIds.length < 2 := by omega
    have hfil : (selectedShapesOf s).filter (fun sh => sh.groupId ≠ some target.id) = [] := by
      refine List.filter_eq_nil_iff.mpr ?_
      intro sh hsh
      simp [hall sh hsh]
    simp only [createGroup, hsg]
    rw [if_neg hnlt, if_pos (Or.inr hne)]
    simp only [hfil, List.isEmpty_nil, if_true]
  · intro hlen himp hstg
    have hnlt : ¬ s.selectedIds.length < 2 := by omega
    rcases hval : selectedGroupsOf s with _ | ⟨t, _ | ⟨t2, rest⟩⟩
    · simp only [createGroup, hval]
      rw [if_neg hnlt]
      simp [createGroupNew, hstg]
    · have hse : selectedShapesOf s = [] := himp t hval
      simp only [createGroup, hval]
      rw [if_neg hnlt, if_neg (by simp [hse])]
      simp [createGroupNew, hstg]
    · simp only [createGroup, hval]
      rw [if_neg hnlt]
      simp [createGroupNew, hstg]
  · intro h
    rcases hval : s.selectedIds with _ | ⟨x, _ | ⟨y, rest⟩⟩
    · simp [ungroup, hval]
    · exact absurd (by rw [hval]; rfl) h
    · simp [ungroup, hval]
  · intro gid hsel hfind
    simp [ungroup, hsel, hfind]

/-- Witness for C3: the five violation cases evaluated on concrete states,
each aborting with the corresponding error and no state change. -/
theorem claim3_witness :
    createGroup t0 s9 = (s9, some errSelectAtLeast2) ∧
    createGroup t0 s3b = (s3b, some errAlreadyInGroup) ∧
    createGroup t0 s3c = (s3c, some errAtLeast2Ungrouped) ∧
    ungroup t0 initState = (initState, some errSelectOneGroup) ∧
    ungroup t0 s9 = (s9, some errNotAGroup) := by
  refine ⟨(claim3_precondition_no_state_change t0 s9).1 (by decide),
    (claim3_precondition_no_state_change t0 s3b).2.1
      ⟨4, ⟨100, 100⟩, 0, ⟨0, 0⟩, 130, 70⟩ (by decide) (by decide) (by decide) (by decide),
    (claim3_precondition_no_state_change t0 s3c).2.2.1 (by decide)
      (fun t h => by simp [selectedGroupsOf, s3c] at h) (by decide),
    (claim3_precondition_no_state_change t0 initState).2.2.2.1 (by decide),
    (claim3_precondition_no_state_change t0 s9).2.2.2.2 0 rfl (by decide)⟩

theorem key_inj {α : Type} (key : α → Nat) {l : List α} (h : (l.map key).Nodup)
    {a b : α} (ha : a ∈ l) (hb : b ∈ l) (hk : key a = key b) : a = b :=
  List.inj_on_of_nodup_map h ha hb hk

theorem two_le_length_of_mem_ne {l : List Nat} {a b : Nat}
    (ha : a ∈ l) (hb : b ∈ l) (hne : a ≠ b) : 2 ≤ l.length := by
  match l with
  | [] => cases ha
  | [x] =>
    rw [List.mem_singleton] at ha hb
    exact absurd (ha.trans hb.symm) hne
  | x :: y :: rest => simp

theorem find?_key_unique {α : Type} (key : α → Nat) {l : List α} {w : α} {k : Nat}
    (hnd : (l.map key).Nodup) (hw : w ∈ l) (hk : key w = k) :
    l.find? (fun t => key t = k) = some w := by
  induction l with
  | nil => cases hw
  | cons x xs ih =>
    rw [List.map_cons, List.nodup_cons] at hnd
    by_cases hx : key x = k
    · have hwx : w = x := by
        rcases List.mem_cons.mp hw with h | h
        · exact h
        · exfalso
          apply hnd.1
          rw [hx, ← hk]
          exact List.mem_map_of_mem key h
      rw [List.find?_cons_of_pos _ (by simpa using hx), hwx]
    · have hwx : w ∈ xs := by
        rcases List.mem_cons.mp hw with h | h
        · exact absurd (h ▸ hk) hx
        · exact h
      rw [List.find?_cons_of_neg _ (by simpa using hx)]
      exact ih hnd.2 hwx

theorem replaceByKey_eq_map {α : Type} (key : α → Nat) {l : List α} (a : α)
    (hnd : (l.map key).Nodup) :
    replaceByKey key l a = l.map (fun t => if key t = key a then a else t) := by
  induction l with
  | nil => rfl
  | cons x xs ih =>
    rw [List.map_cons, List.nodup_cons] at hnd
    by_cases hx : key x = key a
    · rw [replaceByKey, if_pos hx, List.map_cons, if_pos hx]
      have hxs : List.map (fun t => if key t = key a then a else t) xs = xs := by
        have h2 : ∀ t ∈ xs, (if key t = key a then a else t) = t := by
          intro t ht
          rw [if_neg]
          intro hc
          apply hnd.1
          rw [hx, ← hc]
          exact List.mem_map_of_mem key ht
        calc List.map (fun t => if key t = key a then a else t) xs
            = List.map (fun t => t) xs := List.map_congr_left h2
          _ = xs := List.map_id' xs
      rw [hxs]
    · rw [replaceByKey, if_neg hx, List.map_cons, if_neg hx, ih hnd.2]

theorem foldl_replace_eq_map {α : Type} [DecidableEq α] (key : α → Nat) (f : α → α)
    (hf : ∀ x, key (f x) = key x) :
    ∀ (items base : List α), (base.map key).Nodup → (items.map key).Nodup →
      (∀ i ∈ items, i ∈ base) →
      items.foldl (fun acc it => replaceByKey key acc (f it)) base
        = base.map (fun t => if t ∈ items then f t else t) := by
  intro items
  induction items with
  | nil =>
    intro base hb _ _
    simp
  | cons i rest ih =>
    intro base hb hi hsub
    rw [List.map_cons, List.nodup_cons] at hi
    have hib : i ∈ base := hsub i (List.mem_cons_self i rest)
    rw [List.foldl_cons]
    have h1 : replaceByKey key base (f i) = base.map (fun t => if t = i then f i else t) := by
      rw [replaceByKey_eq_map key (f i) hb]
      refine List.map_congr_left ?_
      intro t ht
      by_cases hti : t = i
      · rw [if_pos (by rw [hti, hf]), if_pos hti]
      · rw [if_neg ?_, if_neg hti]
        intro hc
        exact hti (key_inj key hb ht hib (by rw [hc, hf]))
    have hbkeys : (base.map (fun t => if t = i then f i else t)).map key = base.map key := by
      rw [List.map_map]
      refine List.map_congr_left ?_
      intro t _
      simp only [Function.comp_apply]
      by_cases hti : t = i
      · rw [if_pos hti, hf, hti]
      · rw [if_neg hti]
    have hsub2 : ∀ j ∈ rest, j ∈ base.map (fun t => if t = i then f i else t) := by
      intro j hj
      have hjb : j ∈ base := hsub j (List.mem_cons_of_mem i hj)
      have hji : j ≠ i := by
        intro hc
        exact hi.1 (hc ▸ List.mem_map_of_mem key hj)
      have hjj : (fun t => if t = i then f i else t) j = j := if_neg hji
      exact hjj ▸ List.mem_map_of_mem _ hjb
    rw [h1, ih _ (by rw [hbkeys]; exact hb) hi.2 hsub2, List.map_map]
    refine List.map_congr_left ?_
    intro t ht
    simp only [Function.comp_apply]
    by_cases hti : t = i
    · have hfr : f i ∉ rest := by
        intro hc
        exact hi.1 (hf i ▸ List.mem_map_of_mem key hc)
      rw [if_pos hti, if_neg hfr, hti, if_pos (List.mem_cons_self i rest)]
    · rw [if_neg hti]
      by_cases htr : t ∈ rest
      · rw [if_pos htr, if_pos (List.mem_cons_of_mem i htr)]
      · rw [if_neg htr, if_neg (by simp [hti, htr])]

theorem getAbsPos_none (T : Trig) (groups : List Group) (sh : Shape)
    (h : sh.groupId = none) : getAbsPos T groups sh = sh.pos := by
  simp [getAbsPos, h]

theorem getAbsRot_none (groups : List Group) (sh : Shape)
    (h : sh.groupId = none) : getAbsRot groups sh = sh.rot := by
  simp [getAbsRot, h]

theorem getAbsPos_group (T : Trig) (groups : List Group) (sh : Shape) (gid : Nat) (g : Group)
    (h : sh.groupId = some gid) (hfind : groups.find? (fun g0 => g0.id = gid) = some g) :
    getAbsPos T groups sh =
      ⟨g.pos.x + (rotByDeg T g.rot sh.pos).x, g.pos.y + (rotByDeg T g.rot sh.pos).y⟩ := by
  simp [getAbsPos, h, hfind]

theorem createGroupNew_eq (T : Trig) (s : EState)
    (hnd : (s.shapes.map (fun t => t.id)).Nodup)
    (hlen : 2 ≤ (shapesToGroupOf s).length) :
    ∃ b : Bnds, createGroupNew T s =
      ({ s with
          shapes := s.shapes.map (fun t => if t ∈ shapesToGroupOf s then cgMove T s t else t),
          groups := s.groups ++ [⟨s.nextId, ⟨cgAvgX s, cgAvgY s⟩, 0, ⟨b.minX, b.minY⟩,
            b.maxX - b.minX, b.maxY - b.minY⟩],
          selectedIds := [s.nextId], nextId := s.nextId + 1 }, none) := by
  have hf : ∀ x : Shape, (cgMove T s x).id = x.id := fun x => rfl
  have hitems : ∀ i ∈ shapesToGroupOf s, i ∈ s.shapes := fun i hi => List.mem_of_mem_filter hi
  have hikeys : ((shapesToGroupOf s).map (fun t => t.id)).Nodup :=
    hnd.sublist ((List.filter_sublist s.shapes).map (fun t => t.id))
  have hfold := foldl_replace_eq_map (fun t : Shape => t.id) (cgMove T s) hf
    (shapesToGroupOf s) s.shapes hnd hikeys hitems
  simp only [createGroupNew]
  rw [if_neg (by omega)]
  rw [hfold]
  exact ⟨_, rfl⟩

theorem ungroup_eq (T : Trig) (s : EState) (gid : Nat) (g : Group)
    (hnd : (s.shapes.map (fun t => t.id)).Nodup)
    (hsel : s.selectedIds = [gid])
    (hfind : s.groups.find? (fun g0 => g0.id = gid) = some g) :
    ungroup T s =
      ({ s with
          shapes := s.shapes.map
            (fun t => if t.groupId = some gid then ugDetach T s.groups g t else t),
          groups := s.groups.filter (fun g0 => g0.id ≠ gid),
          selectedIds := (s.shapes.filter (fun t => t.groupId = some gid)).map (fun t => t.id) },
       none) := by
  have hf : ∀ x : Shape, (ugDetach T s.groups g x).id = x.id := fun x => rfl
  have hitems : ∀ i ∈ s.shapes.filter (fun sh => sh.groupId = some gid), i ∈ s.shapes :=
    fun i hi => List.mem_of_mem_filter hi
  have hikeys : ((s.shapes.filter (fun sh => sh.groupId = some gid)).map (fun t => t.id)).Nodup :=
    hnd.sublist ((List.filter_sublist s.shapes).map (fun t => t.id))
  have hfold := foldl_replace_eq_map (fun t : Shape => t.id) (ugDetach T s.groups g) hf
    (s.shapes.filter (fun sh => sh.groupId = some gid)) s.shapes hnd hikeys hitems
  have hcong : s.shapes.map
      (fun t => if t ∈ s.shapes.filter (fun sh => sh.groupId = some gid)
        then ugDetach T s.groups g t else t)
      = s.shapes.map (fun t => if t.groupId = some gid then ugDetach T s.groups g t else t) := by
    refine List.map_congr_left ?_
    intro t ht
    by_cases hp : t.groupId = some gid
    · rw [if_pos (List.mem_filter.mpr ⟨ht, by simpa using hp⟩), if_pos hp]
    · rw [if_neg (fun hc => hp (by simpa using (List.mem_filter.mp hc).2)), if_neg hp]
  simp only [ungroup, hsel, hfind]
  rw [hfold, hcong]

theorem asgStep_ungrouped (T : Trig) (og : List Group) (tg : Group)
    (ws : List WShape) (gs : List Group) (sid : Nat) (w : WShape)
    (hnd : (ws.map (fun v => v.sh.id)).Nodup)
    (hw : w ∈ ws) (hid : w.sh.id = sid) (hgid : w.sh.groupId = none)
    (hst : w.staleGid = none) :
    asgStep T og tg (ws, gs) sid =
      (ws.map (fun v => if v.sh.id = sid
        then (⟨asgMoveUngrouped T tg v.sh, v.staleGid⟩ : WShape) else v), gs) := by
  have hfind : ws.find? (fun v => v.sh.id = sid) = some w :=
    find?_key_unique (fun v => v.sh.id) hnd hw hid
  have h1 : getAbsPos T gs w.sh = w.sh.pos := getAbsPos_none T gs w.sh hgid
  have h2 : getAbsRot gs w.sh = w.sh.rot := getAbsRot_none gs w.sh hgid
  simp only [asgStep, hfind, hst, h1, h2]
  rw [replaceByKey_eq_map (fun v : WShape => v.sh.id) _ hnd]
  refine congrArg (fun l => (l, gs)) ?_
  refine List.map_congr_left ?_
  intro v hv
  by_cases hvs : v.sh.id = sid
  · have hveq : v = w := key_inj (fun v => v.sh.id) hnd hv hw (hvs.trans hid.symm)
    rw [if_pos (show v.sh.id = w.sh.id from hvs.trans hid.symm), if_pos hvs, hveq]
    simp [asgMoveUngrouped, hst]
  · rw [if_neg (fun hc => hvs (hc.trans hid)), if_neg hvs]

theorem asg_fold_ungrouped (T : Trig) (og : List Group) (tg : Group) :
    ∀ (ids : List Nat) (ws : List WShape) (gs : List Group),
      ids.Nodup →
      (ws.map (fun v => v.sh.id)).Nodup →
      (∀ id ∈ ids, ∃ w ∈ ws, w.sh.id = id ∧ w.sh.groupId = none ∧ w.staleGid = none) →
      ids.foldl (asgStep T og tg) (ws, gs)
        = (ws.map (fun v => if v.sh.id ∈ ids
            then (⟨asgMoveUngrouped T tg v.sh, v.staleGid⟩ : WShape) else v), gs) := by
  intro ids
  induction ids with
  | nil =>
    intro ws gs _ _ _
    simp
  | cons i rest ih =>
    intro ws gs hids hnd hres
    rw [List.nodup_cons] at hids
    obtain ⟨w, hw, hwid, hwg, hwst⟩ := hres i (List.mem_cons_self i rest)
    rw [List.foldl_cons, asgStep_ungrouped T og tg ws gs i w hnd hw hwid hwg hwst]
    have hkeys : ((ws.map (fun v => if v.sh.id = i
        then (⟨asgMoveUngrouped T tg v.sh, v.staleGid⟩ : WShape) else v)).map
          (fun v => v.sh.id)) = ws.map (fun v => v.sh.id) := by
      rw [List.map_map]
      refine List.map_congr_left ?_
      intro v _
      simp only [Function.comp_apply]
      by_cases hv : v.sh.id = i
      · rw [if_pos hv]
        rfl
      · rw [if_neg hv]
    have hres2 : ∀ id ∈ rest,
        ∃ w2 ∈ ws.map (fun v => if v.sh.id = i
          then (⟨asgMoveUngrouped T tg v.sh, v.staleGid⟩ : WShape) else v),
          w2.sh.id = id ∧ w2.sh.groupId = none ∧ w2.staleGid = none := by
      intro id hidr
      obtain ⟨w2, hw2, h2id, h2g, h2st⟩ := hres id (List.mem_cons_of_mem i hidr)
      have hne : w2.sh.id ≠ i := by
        rw [h2id]
        exact fun hc => hids.1 (hc ▸ hidr)
      refine ⟨w2, ?_, h2id, h2g, h2st⟩
      have heq : (if w2.sh.id = i
          then (⟨asgMoveUngrouped T tg w2.sh, w2.staleGid⟩ : WShape) else w2) = w2 := if_neg hne
      exact heq ▸ List.mem_map_of_mem _ hw2
    rw [ih _ gs hids.2 (by rw [hkeys]; exact hnd) hres2, List.map_map]
    refine congrArg (fun l => (l, gs)) ?_
    refine List.map_congr_left ?_
    intro v hv
    simp only [Function.comp_apply]
    by_cases hvi : v.sh.id = i
    · rw [if_pos hvi]
      rw [if_neg (show ¬ ((⟨asgMoveUngrouped T tg v.sh, v.staleGid⟩ : WShape).sh.id ∈ rest)
        from by
          show ¬ (v.sh.id ∈ rest)
          rw [hvi]
          exact hids.1),
        if_pos (by rw [hvi]; exact List.mem_cons_self i rest)]
    · rw [if_neg hvi]
      by_cases hvr : v.sh.id ∈ rest
      · rw [if_pos hvr, if_pos (List.mem_cons_of_mem i hvr)]
      · rw [if_neg hvr, if_neg (by simp [hvi, hvr])]

theorem addShapesToGroup_ungrouped (T : Trig) (s : EState) (target : Group) (ids : List Nat)
    (hnd : (s.shapes.map (fun t => t.id)).Nodup)
    (hids : ids.Nodup)
    (hres : ∀ id ∈ ids, ∃ sh ∈ s.shapes, sh.id = id ∧ sh.groupId = none) :
    addShapesToGroup T s target ids =
      { s with
        shapes := s.shapes.map (fun t => if t.id ∈ ids then asgMoveUngrouped T target t else t),
        groups := s.groups.map (fun g =>
          if g.id = target.id then
            updateGroupBoundingBox g
              ((s.shapes.map (fun t => if t.id ∈ ids then asgMoveUngrouped T target t else t)).filter
                (fun sh => sh.groupId = some target.id))
          else g) } := by
  have hwnd : ((s.shapes.map (fun sh => (⟨sh, sh.groupId⟩ : WShape))).map
      (fun v => v.sh.id)).Nodup := by
    rw [List.map_map]
    exact hnd
  have hres2 : ∀ id ∈ ids,
      ∃ w ∈ s.shapes.map (fun sh => (⟨sh, sh.groupId⟩ : WShape)),
        w.sh.id = id ∧ w.sh.groupId = none ∧ w.staleGid = none := by
    intro id hid
    obtain ⟨sh, hsh, hshid, hshg⟩ := hres id hid
    exact ⟨⟨sh, sh.groupId⟩, List.mem_map_of_mem _ hsh, hshid, hshg, hshg⟩
  have hcomp : ((s.shapes.map (fun sh => (⟨sh, sh.groupId⟩ : WShape))).map
      (fun v => if v.sh.id ∈ ids
        then (⟨asgMoveUngrouped T target v.sh, v.staleGid⟩ : WShape) else v)).map
        (fun w => w.sh)
      = s.shapes.map (fun t => if t.id ∈ ids then asgMoveUngrouped T target t else t) := by
    rw [List.map_map, List.map_map]
    refine List.map_congr_left ?_
    intro t ht
    simp only [Function.comp_apply]
    by_cases h : t.id ∈ ids
    · rw [if_pos h, if_pos h]
    · rw [if_neg h, if_neg h]
  simp only [addShapesToGroup]
  rw [asg_fold_ungrouped T s.groups target ids _ s.groups hids hwnd hres2]
  simp only [hcomp]

theorem find?_append_right {α : Type} (p : α → Bool) (l1 l2 : List α)
    (h : ∀ x ∈ l1, ¬ p x = true) : (l1 ++ l2).find? p = l2.find? p := by
  induction l1 with
  | nil => rfl
  | cons x xs ih =>
    rw [List.cons_append, List.find?_cons_of_neg _ (h x (List.mem_cons_self x xs))]
    exact ih (fun y hy => h y (List.mem_cons_of_mem x hy))

theorem mem_selectedGroupsOf (s : EState) (g : Group)
    (hgnd : (s.groups.map (fun g0 => g0.id)).Nodup)
    (hg : g ∈ s.groups) (hsel : g.id ∈ s.selectedIds) :
    g ∈ selectedGroupsOf s := by
  unfold selectedGroupsOf
  exact List.mem_filterMap.mpr ⟨g.id, hsel, find?_key_unique (fun g0 => g0.id) hgnd hg rfl⟩

theorem selectedGroupsOf_target (s : EState) (target : Group)
    (hsg : selectedGroupsOf s = [target]) :
    target ∈ s.groups ∧ target.id ∈ s.selectedIds := by
  have hmem : target ∈ selectedGroupsOf s := by rw [hsg]; exact List.mem_singleton_self target
  obtain ⟨a, ha, hfind⟩ := List.mem_filterMap.mp hmem
  have h1 : target ∈ s.groups := List.mem_of_find?_eq_some hfind
  have h2 : target.id = a := by simpa using List.find?_some hfind
  exact ⟨h1, h2 ▸ ha⟩

theorem addable_ungrouped (s : EState) (target : Group)
    (hgnd : (s.groups.map (fun g0 => g0.id)).Nodup)
    (hpar : ∀ sh ∈ s.shapes, ∀ gid ∈ sh.groupId.toList, ∃ g ∈ s.groups, g.id = gid)
    (hselwf : ∀ sh ∈ s.shapes, sh.id ∈ s.selectedIds → sh.groupId = none)
    (hsg : selectedGroupsOf s = [target]) :
    ∀ sh ∈ selectedShapesOf s, sh.groupId ≠ some target.id →
      sh.groupId = none ∧ sh.id ∈ s.selectedIds := by
  intro sh hsh hne
  have hmem := List.mem_filter.mp hsh
  have hshs : sh ∈ s.shapes := hmem.1
  rcases hgid : sh.groupId with _ | G
  · refine ⟨rfl, ?_⟩
    have hp := hmem.2
    rw [hgid] at hp
    simpa using hp
  · exfalso
    have hp := hmem.2
    rw [hgid] at hp
    simp only [Bool.or_eq_true] at hp
    rcases hp with hp | hp
    · have hcontra := hselwf sh hshs (by simpa using hp)
      rw [hgid] at hcontra
      exact Option.noConfusion hcontra
    · have hGsel : G ∈ s.selectedIds := by simpa using hp
      obtain ⟨g, hg, hgidG⟩ := hpar sh hshs G (by rw [hgid]; simp)
      have hgt : g ∈ selectedGroupsOf s := mem_selectedGroupsOf s g hgnd hg (hgidG ▸ hGsel)
      rw [hsg, List.mem_singleton] at hgt
      have hGt : G = target.id := by rw [← hgt, hgidG]
      exact hne (by rw [hgid, hGt])

theorem createGroup_merge_eq (T : Trig) (s : EState) (target : Group)
    (hw : WF s)
    (hsg : selectedGroupsOf s = [target])
    (hadd : ∃ sh ∈ selectedShapesOf s, sh.groupId ≠ some target.id) :
    createGroup T s =
      ({ addShapesToGroup T s target
            (((selectedShapesOf s).filter (fun sh => sh.groupId ≠ some target.id)).map
              (fun sh => sh.id))
          with selectedIds := [target.id] }, none) := by
  obtain ⟨hnd, hgnd, hdisj, hbs, hbg, hmin, hpar, hselwf, hselnd⟩ := hw
  obtain ⟨htg, htsel⟩ := selectedGroupsOf_target s target hsg
  obtain ⟨sh0, hsh0, hne0⟩ := hadd
  obtain ⟨hg0, hsel0⟩ := addable_ungrouped s target hgnd hpar hselwf hsg sh0 hsh0 hne0
  have hs0 : sh0 ∈ s.shapes := (List.mem_filter.mp hsh0).1
  have hlen : 2 ≤ s.selectedIds.length :=
    two_le_length_of_mem_ne hsel0 htsel (hdisj sh0 hs0 target htg)
  have hmemf : sh0 ∈ (selectedShapesOf s).filter (fun sh => sh.groupId ≠ some target.id) :=
    List.mem_filter.mpr ⟨hsh0, by simpa using hne0⟩
  have hempty : ¬ ((selectedShapesOf s).filter
      (fun sh => sh.groupId ≠ some target.id)).isEmpty = true := by
    simp only [List.isEmpty_iff]
    exact List.ne_nil_of_mem hmemf
  simp only [createGroup, hsg]
  rw [if_neg (by omega), if_pos (Or.inl ⟨sh0, hsh0, hne0⟩), if_neg hempty]

theorem createGroup_not_single (T : Trig) (s : EState)
    (hlen : ¬ s.selectedIds.length < 2)
    (hng : (selectedGroupsOf s).length ≠ 1) :
    createGroup T s = createGroupNew T s := by
  simp only [createGroup]
  rw [if_neg hlen]
  rcases hval : selectedGroupsOf s with _ | ⟨t, _ | ⟨t2, r⟩⟩
  · rfl
  · exact absurd (by rw [hval]; rfl) hng
  · rfl

/-- C5 — when at least 2 ids are selected, at least 2 of them are ungrouped
shapes, and the selection does not implicate exactly one group, `createGroup`
succeeds: a new group is created with id `s.nextId`, rotation 0, positioned
at the arithmetic mean of the members' prior positions; each member is
reparented at local position `absolutePos - mean` with its rotation kept and
its independent dragging disabled, its absolute position unchanged; and the
new group becomes the sole selection. -/
theorem claim5_new_group_behavior (T : Trig) (s : EState)
    (hT0 : T.cosD 0 = 1) (hT1 : T.sinD 0 = 0)
    (hwf : WF s)
    (hlen2 : 2 ≤ s.selectedIds.length)
    (hng : (selectedGroupsOf s).length ≠ 1)
    (hstg : 2 ≤ (shapesToGroupOf s).length) :
    (createGroup T s).2 = none ∧
    (createGroup T s).1.selectedIds = [s.nextId] ∧
    (∃ g ∈ (createGroup T s).1.groups, g.id = s.nextId ∧ g.rot = 0 ∧
      g.pos = ⟨cgAvgX s, cgAvgY s⟩) ∧
    (∀ sh ∈ shapesToGroupOf s, ∃ sh2 ∈ (createGroup T s).1.shapes,
      sh2.id = sh.id ∧
      sh2.pos = ⟨(getAbsPos T s.groups sh).x - cgAvgX s,
                 (getAbsPos T s.groups sh).y - cgAvgY s⟩ ∧
      sh2.rot = sh.rot ∧
      sh2.draggable = false ∧
      sh2.groupId = some s.nextId ∧
      getAbsPos T (createGroup T s).1.groups sh2 = getAbsPos T s.groups sh) := by
  obtain ⟨hnd, hgnd, hdisj, hbs, hbg, hmin, hpar, hselwf, hselnd⟩ := hwf
  have hcg := createGroup_not_single T s (by omega) hng
  obtain ⟨b, hb⟩ := createGroupNew_eq T s hnd hstg
  rw [hcg, hb]
  refine ⟨rfl, rfl, ?_, ?_⟩
  · exact ⟨⟨s.nextId, ⟨cgAvgX s, cgAvgY s⟩, 0, ⟨b.minX, b.minY⟩,
      b.maxX - b.minX, b.maxY - b.minY⟩, by simp, rfl, rfl, rfl⟩
  · intro sh hsh
    have hshs : sh ∈ s.shapes := List.mem_of_mem_filter hsh
    refine ⟨cgMove T s sh, ?_, rfl, rfl, rfl, rfl, rfl, ?_⟩
    · have heq : (if sh ∈ shapesToGroupOf s then cgMove T s sh else sh) = cgMove T s sh :=
        if_pos hsh
      exact heq ▸ List.mem_map_of_mem _ hshs
    · have hfind : ((s.groups ++ [(⟨s.nextId, ⟨cgAvgX s, cgAvgY s⟩, 0, ⟨b.minX, b.minY⟩,
          b.maxX - b.minX, b.maxY - b.minY⟩ : Group)]).find? (fun g0 => g0.id = s.nextId))
          = some ⟨s.nextId, ⟨cgAvgX s, cgAvgY s⟩, 0, ⟨b.minX, b.minY⟩,
              b.maxX - b.minX, b.maxY - b.minY⟩ := by
        rw [find?_append_right _ _ _ (fun x hx => by
          simp only [decide_eq_true_eq]
          exact Nat.ne_of_lt (hbg x hx))]
        simp
      rw [getAbsPos_group T _ (cgMove T s sh) s.nextId _ rfl hfind]
      rcases habs : getAbsPos T s.groups sh with ⟨ax, ay⟩
      simp only [rotByDeg, hT0, hT1, cgMove, habs, Pt.mk.injEq]
      constructor <;> ring

theorem keys_map_update (f : Shape → Shape) (hf : ∀ x, (f x).id = x.id)
    (p : Shape → Prop) [DecidablePred p] (l : List Shape) :
    (l.map (fun t => if p t then f t else t)).map (fun t => t.id)
      = l.map (fun t => t.id) := by
  rw [List.map_map]
  refine List.map_congr_left ?_
  intro t _
  simp only [Function.comp_apply]
  by_cases hp : p t
  · rw [if_pos hp, hf]
  · rw [if_neg hp]

/-- Witness for C5: grouping the two demo rectangles (selected as `[0, 1]`)
succeeds and selects the fresh group id. -/
theorem claim5_witness :
    (createGroup t0 demo4).2 = none ∧
    (createGroup t0 demo4).1.selectedIds = [demo4.nextId] := by
  have h := claim5_new_group_behavior t0 demo4 rfl rfl (by decide) (by decide)
    (by decide) (by decide)
  exact ⟨h.1, h.2.1⟩

/-- C1 — grouping a selection of at least two ungrouped shapes and
immediately ungrouping the resulting group restores every selected shape's
absolute position and absolute rotation exactly (in this exact-rational
model of the float computation, hence within any floating-point
tolerance). -/
theorem claim1_group_ungroup_roundtrip (T : Trig) (s : EState)
    (hT0 : T.cosD 0 = 1) (hT1 : T.sinD 0 = 0)
    (hwf : WF s)
    (hlen : 2 ≤ s.selectedIds.length)
    (hres : ∀ id ∈ s.selectedIds, ∃ sh ∈ s.shapes, sh.id = id ∧ sh.groupId = none) :
    (createGroup T s).2 = none ∧
    (ungroup T (createGroup T s).1).2 = none ∧
    ∀ sh ∈ s.shapes, sh.id ∈ s.selectedIds →
      ∃ sh2 ∈ (ungroup T (createGroup T s).1).1.shapes,
        sh2.id = sh.id ∧
        getAbsPos T (ungroup T (createGroup T s).1).1.groups sh2 = getAbsPos T s.groups sh ∧
        getAbsRot (ungroup T (createGroup T s).1).1.groups sh2 = getAbsRot s.groups sh := by
  obtain ⟨hnd, hgnd, hdisj, hbs, hbg, hmin, hpar, hselwf, hselnd⟩ := hwf
  have hsgnil : selectedGroupsOf s = [] := by
    unfold selectedGroupsOf
    rw [List.filterMap_eq_nil_iff]
    intro a ha
    obtain ⟨sh, hsh, hid, _⟩ := hres a ha
    rcases hf : s.groups.find? (fun g => g.id = a) with _ | g
    · exact hf
    · exfalso
      have hgmem := List.mem_of_find?_eq_some hf
      have hgid : g.id = a := by simpa using List.find?_some hf
      exact hdisj sh hsh g hgmem (hid.trans hgid.symm)
  have hng : (selectedGroupsOf s).length ≠ 1 := by rw [hsgnil]; simp
  have hsub : s.selectedIds ⊆ (shapesToGroupOf s).map (fun t => t.id) := by
    intro a ha
    obtain ⟨sh, hsh, hid, hg⟩ := hres a ha
    have hstg : sh ∈ shapesToGroupOf s := by
      refine List.mem_filter.mpr ⟨hsh, ?_⟩
      simp [hid, ha, hg]
    exact hid ▸ List.mem_map_of_mem _ hstg
  have hstg2 : 2 ≤ (shapesToGroupOf s).length := by
    have hle := (hselnd.subperm hsub).length_le
    rw [List.length_map] at hle
    omega
  have hcg := createGroup_not_single T s (by omega) hng
  obtain ⟨b, hb⟩ := createGroupNew_eq T s hnd hstg2
  have hstate : createGroup T s =
      ({ s with
          shapes := s.shapes.map (fun t => if t ∈ shapesToGroupOf s then cgMove T s t else t),
          groups := s.groups ++ [⟨s.nextId, ⟨cgAvgX s, cgAvgY s⟩, 0, ⟨b.minX, b.minY⟩,
            b.maxX - b.minX, b.maxY - b.minY⟩],
          selectedIds := [s.nextId], nextId := s.nextId + 1 }, none) := hcg.trans hb
  have hstate1 : (createGroup T s).1 =
      { s with
          shapes := s.shapes.map (fun t => if t ∈ shapesToGroupOf s then cgMove T s t else t),
          groups := s.groups ++ [⟨s.nextId, ⟨cgAvgX s, cgAvgY s⟩, 0, ⟨b.minX, b.minY⟩,
            b.maxX - b.minX, b.maxY - b.minY⟩],
          selectedIds := [s.nextId], nextId := s.nextId + 1 } := by rw [hstate]
  have hnd1 : ((s.shapes.map
      (fun t => if t ∈ shapesToGroupOf s then cgMove T s t else t)).map
        (fun t => t.id)).Nodup := by
    rw [keys_map_update (cgMove T s) (fun x => rfl) (fun t => t ∈ shapesToGroupOf s)]
    exact hnd
  have hfind1 : ((s.groups ++ [(⟨s.nextId, ⟨cgAvgX s, cgAvgY s⟩, 0, ⟨b.minX, b.minY⟩,
      b.maxX - b.minX, b.maxY - b.minY⟩ : Group)]).find? (fun g0 => g0.id = s.nextId))
      = some ⟨s.nextId, ⟨cgAvgX s, cgAvgY s⟩, 0, ⟨b.minX, b.minY⟩,
          b.maxX - b.minX, b.maxY - b.minY⟩ := by
    rw [find?_append_right _ _ _ (fun x hx => by
      simp only [decide_eq_true_eq]
      exact Nat.ne_of_lt (hbg x hx))]
    simp
  have hu := ungroup_eq T
    { s with
        shapes := s.shapes.map (fun t => if t ∈ shapesToGroupOf s then cgMove T s t else t),
        groups := s.groups ++ [⟨s.nextId, ⟨cgAvgX s, cgAvgY s⟩, 0, ⟨b.minX, b.minY⟩,
          b.maxX - b.minX, b.maxY - b.minY⟩],
        selectedIds := [s.nextId], nextId := s.nextId + 1 }
    s.nextId
    ⟨s.nextId, ⟨cgAvgX s, cgAvgY s⟩, 0, ⟨b.minX, b.minY⟩, b.maxX - b.minX, b.maxY - b.minY⟩
    hnd1 rfl hfind1
  refine ⟨by rw [hstate], by rw [hstate1, hu], ?_⟩
  intro sh hsh hselmem
  obtain ⟨sh', hsh', hid', hg'⟩ := hres sh.id hselmem
  have hgid0 : sh.groupId = none := by
    have heq : sh' = sh := key_inj (fun t => t.id) hnd hsh' hsh hid'
    rw [← heq]
    exact hg'
  have hmemtg : sh ∈ shapesToGroupOf s :=
    List.mem_filter.mpr ⟨hsh, by simp [hselmem, hgid0]⟩
  rw [hstate1, hu]
  refine ⟨ugDetach T
      (s.groups ++ [⟨s.nextId, ⟨cgAvgX s, cgAvgY s⟩, 0, ⟨b.minX, b.minY⟩,
        b.maxX - b.minX, b.maxY - b.minY⟩])
      ⟨s.nextId, ⟨cgAvgX s, cgAvgY s⟩, 0, ⟨b.minX, b.minY⟩, b.maxX - b.minX, b.maxY - b.minY⟩
      (cgMove T s sh), ?_, rfl, ?_, ?_⟩
  · have hm1 : cgMove T s sh ∈ s.shapes.map
        (fun t => if t ∈ shapesToGroupOf s then cgMove T s t else t) := by
      have heq : (if sh ∈ shapesToGroupOf s then cgMove T s sh else sh) = cgMove T s sh :=
        if_pos hmemtg
      exact heq ▸ List.mem_map_of_mem _ hsh
    have heq2 : (if (cgMove T s sh).groupId = some s.nextId
        then ugDetach T
          (s.groups ++ [⟨s.nextId, ⟨cgAvgX s, cgAvgY s⟩, 0, ⟨b.minX, b.minY⟩,
            b.maxX - b.minX, b.maxY - b.minY⟩])
          ⟨s.nextId, ⟨cgAvgX s, cgAvgY s⟩, 0, ⟨b.minX, b.minY⟩,
            b.maxX - b.minX, b.maxY - b.minY⟩ (cgMove T s sh)
        else cgMove T s sh)
        = ugDetach T
          (s.groups ++ [⟨s.nextId, ⟨cgAvgX s, cgAvgY s⟩, 0, ⟨b.minX, b.minY⟩,
            b.maxX - b.minX, b.maxY - b.minY⟩])
          ⟨s.nextId, ⟨cgAvgX s, cgAvgY s⟩, 0, ⟨b.minX, b.minY⟩,
            b.maxX - b.minX, b.maxY - b.minY⟩ (cgMove T s sh) := if_pos rfl
    exact heq2 ▸ List.mem_map_of_mem _ hm1
  · rw [getAbsPos_none T _ _ rfl]
    show getAbsPos T
      (s.groups ++ [⟨s.nextId, ⟨cgAvgX s, cgAvgY s⟩, 0, ⟨b.minX, b.minY⟩,
        b.maxX - b.minX, b.maxY - b.minY⟩]) (cgMove T s sh) = getAbsPos T s.groups sh
    rw [getAbsPos_group T _ (cgMove T s sh) s.nextId _ rfl hfind1]
    rcases habs : getAbsPos T s.groups sh with ⟨ax, ay⟩
    simp only [rotByDeg, hT0, hT1, cgMove, habs, Pt.mk.injEq]
    constructor <;> ring
  · rw [getAbsRot_none _ _ rfl, getAbsRot_none _ _ hgid0]
    show (cgMove T s sh).rot + (0 : ℚ) = sh.rot
    simp [cgMove]

/-- Witness for C1: the round trip on the two demo rectangles succeeds in
both steps. -/
theorem claim1_witness :
    (createGroup t0 demo4).2 = none ∧ (ungroup t0 (createGroup t0 demo4).1).2 = none := by
  have h := claim1_group_ungroup_roundtrip t0 demo4 rfl rfl (by decide) (by decide) (by decide)
  exact ⟨h.1, h.2.1⟩

/-- C4 — when the selection implicates exactly one existing group together
with at least one shape that is not already its member, `createGroup`
creates no new group: every group id survives unchanged (and none is
added), the implicated non-member shapes are added to that group — its
membership becomes exactly the old members plus the selected ungrouped
shapes — and the group becomes the sole selection. -/
theorem claim4_merge_into_existing (T : Trig) (s : EState) (target : Group)
    (hwf : WF s)
    (hsg : selectedGroupsOf s = [target])
    (hadd : ∃ sh ∈ selectedShapesOf s, sh.groupId ≠ some target.id) :
    (createGroup T s).2 = none ∧
    (createGroup T s).1.selectedIds = [target.id] ∧
    (createGroup T s).1.groups.map (fun g => g.id) = s.groups.map (fun g => g.id) ∧
    (createGroup T s).1.shapes.map (fun t => t.id) = s.shapes.map (fun t => t.id) ∧
    (∀ sh2 ∈ (createGroup T s).1.shapes,
      (sh2.groupId = some target.id ↔
        ∃ sh ∈ s.shapes, sh.id = sh2.id ∧
          (sh.groupId = some target.id ∨ (sh.id ∈ s.selectedIds ∧ sh.groupId = none)))) := by
  have hmerge := createGroup_merge_eq T s target hwf hsg hadd
  obtain ⟨hnd, hgnd, hdisj, hbs, hbg, hmin, hpar, hselwf, hselnd⟩ := hwf
  have hsubl : ((selectedShapesOf s).filter (fun sh => sh.groupId ≠ some target.id)).Sublist
      s.shapes :=
    (List.filter_sublist (selectedShapesOf s)).trans (List.filter_sublist s.shapes)
  have hidsnd : (((selectedShapesOf s).filter
      (fun sh => sh.groupId ≠ some target.id)).map (fun sh => sh.id)).Nodup :=
    hnd.sublist (hsubl.map (fun sh => sh.id))
  have hresids : ∀ id ∈ ((selectedShapesOf s).filter
      (fun sh => sh.groupId ≠ some target.id)).map (fun sh => sh.id),
      ∃ sh ∈ s.shapes, sh.id = id ∧ sh.groupId = none := by
    intro id hid
    obtain ⟨sh, hshf, hshid⟩ := List.mem_map.mp hid
    have hsel1 := List.mem_filter.mp hshf
    have hne : sh.groupId ≠ some target.id := by simpa using hsel1.2
    obtain ⟨hg0, _⟩ := addable_ungrouped s target hgnd hpar hselwf hsg sh hsel1.1 hne
    exact ⟨sh, (List.mem_filter.mp hsel1.1).1, hshid, hg0⟩
  have hasg := addShapesToGroup_ungrouped T s target
    (((selectedShapesOf s).filter (fun sh => sh.groupId ≠ some target.id)).map
      (fun sh => sh.id)) hnd hidsnd hresids
  have hmem_ids : ∀ t ∈ s.shapes,
      (t.id ∈ ((selectedShapesOf s).filter
        (fun sh => sh.groupId ≠ some target.id)).map (fun sh => sh.id)
        ↔ (t ∈ selectedShapesOf s ∧ t.groupId ≠ some target.id)) := by
    intro t ht
    constructor
    · intro hid
      obtain ⟨sh, hshf, hshid⟩ := List.mem_map.mp hid
      have hsel1 := List.mem_filter.mp hshf
      have hsheq : sh = t :=
        key_inj (fun t => t.id) hnd (List.mem_of_mem_filter hsel1.1) ht hshid
      rw [← hsheq]
      exact ⟨hsel1.1, by simpa using hsel1.2⟩
    · intro ⟨h1, h2⟩
      exact List.mem_map_of_mem _ (List.mem_filter.mpr ⟨h1, by simpa using h2⟩)
  rw [hmerge]
  refine ⟨rfl, rfl, ?_, ?_, ?_⟩
  · rw [hasg]
    show (s.groups.map _).map _ = _
    rw [List.map_map]
    refine List.map_congr_left ?_
    intro g _
    simp only [Function.comp_apply]
    by_cases hg : g.id = target.id
    · rw [if_pos hg]
      exact rfl
    · rw [if_neg hg]
  · rw [hasg]
    exact keys_map_update (asgMoveUngrouped T target) (fun x => rfl) _ s.shapes
  · rw [hasg]
    intro sh2 hsh2
    obtain ⟨t, ht, hut⟩ := List.mem_map.mp hsh2
    by_cases hin : t.id ∈ ((selectedShapesOf s).filter
        (fun sh => sh.groupId ≠ some target.id)).map (fun sh => sh.id)
    · rw [if_pos hin] at hut
      obtain ⟨hsel1, hne1⟩ := (hmem_ids t ht).mp hin
      obtain ⟨hg0, hselid⟩ := addable_ungrouped s target hgnd hpar hselwf hsg t hsel1 hne1
      constructor
      · intro _
        exact ⟨t, ht, by rw [← hut]; exact rfl, Or.inr ⟨hselid, hg0⟩⟩
      · intro _
        rw [← hut]
        exact rfl
    · rw [if_neg hin] at hut
      rw [← hut]
      constructor
      · intro hgt
        exact ⟨t, ht, rfl, Or.inl hgt⟩
      · intro ⟨sh, hsh, hshid, hdisj2⟩
        have hsheq : sh = t := key_inj (fun t => t.id) hnd hsh ht hshid
        rcases hdisj2 with hgt | ⟨hselid, hg0⟩
        · rw [← hsheq]
          exact hgt
        · exfalso
          apply hin
          refine (hmem_ids t ht).mpr ⟨?_, ?_⟩
          · refine List.mem_filter.mpr ⟨ht, ?_⟩
            have : t.id ∈ s.selectedIds := hsheq ▸ hselid
            simp [this]
          · rw [← hsheq, hg0]
            simp

/-- Witness for C4: selecting shape 2 together with group 10 (members 0 and
1) merges shape 2 into group 10, which becomes the sole selection, with no
new group created. -/
theorem claim4_witness :
    (createGroup t0 s4w).2 = none ∧
    (createGroup t0 s4w).1.selectedIds = [10] ∧
    (createGroup t0 s4w).1.groups.map (fun g => g.id) = [10] := by
  have h := claim4_merge_into_existing t0 s4w ⟨10, ⟨100, 100⟩, 0, ⟨0, 0⟩, 130, 70⟩
    (by decide) (by decide) (by decide)
  exact ⟨h.1, h.2.1, h.2.2.1.trans rfl⟩

theorem length_filter_map (l : List Shape) (u : Shape → Shape) (p q : Shape → Bool)
    (h : ∀ t ∈ l, p (u t) = q t) :
    ((l.map u).filter p).length = (l.filter q).length := by
  induction l with
  | nil => rfl
  | cons t ts ih =>
    have ih2 := ih (fun x hx => h x (List.mem_cons_of_mem t hx))
    simp only [List.map_cons, List.filter_cons]
    rw [h t (List.mem_cons_self t ts)]
    cases hq : q t <;> simp [ih2]

theorem length_filter_map_le (l : List Shape) (u : Shape → Shape) (p q : Shape → Bool)
    (h : ∀ t ∈ l, q t = true → p (u t) = true) :
    (l.filter q).length ≤ ((l.map u).filter p).length := by
  induction l with
  | nil => exact Nat.le_refl 0
  | cons t ts ih =>
    have ih2 := ih (fun x hx hq => h x (List.mem_cons_of_mem t hx) hq)
    simp only [List.map_cons, List.filter_cons]
    cases hq : q t
    · refine Nat.le_trans ih2 ?_
      cases hp : p (u t) <;> simp
    · rw [h t (List.mem_cons_self t ts) hq]
      simpa using ih2

theorem wf_set_selection (s : EState) (sel : List Nat) (h : WF s)
    (h8 : ∀ sh ∈ s.shapes, sh.id ∈ sel → sh.groupId = none)
    (h9 : sel.Nodup) : WF { s with selectedIds := sel } := by
  obtain ⟨h1, h2, h3, h4, h5, h6, h7, _, _⟩ := h
  exact ⟨h1, h2, h3, h4, h5, h6, h7, h8, h9⟩

theorem wf_initState : WF initState := by decide

theorem wf_addShape (s : EState) (geom : SGeom) (p : Pt) (h : WF s) :
    WF { s with shapes := s.shapes ++ [⟨s.nextId, geom, p, 0, true, none⟩],
                nextId := s.nextId + 1 } := by
  obtain ⟨h1, h2, h3, h4, h5, h6, h7, h8, h9⟩ := h
  refine ⟨?_, h2, ?_, ?_, ?_, ?_, ?_, ?_, h9⟩
  · rw [List.map_append]
    refine List.Nodup.append h1 (List.nodup_singleton _) ?_
    intro a ha hb
    rw [List.map_singleton, List.mem_singleton] at hb
    obtain ⟨sh, hsh, hshid⟩ := List.mem_map.mp ha
    have hb2 : a = s.nextId := hb
    have := h4 sh hsh
    omega
  · intro sh hsh g hg
    rcases List.mem_append.mp hsh with hm | hm
    · exact h3 sh hm g hg
    · rw [List.mem_singleton] at hm
      have := h5 g hg
      rw [hm]
      show s.nextId ≠ g.id
      omega
  · intro sh hsh
    show sh.id < s.nextId + 1
    rcases List.mem_append.mp hsh with hm | hm
    · have := h4 sh hm
      omega
    · rw [List.mem_singleton] at hm
      rw [hm]
      show s.nextId < s.nextId + 1
      omega
  · intro g hg
    show g.id < s.nextId + 1
    have := h5 g hg
    omega
  · intro g hg
    rw [List.filter_append]
    have hnew : List.filter (fun t => t.groupId = some g.id)
        [(⟨s.nextId, geom, p, 0, true, none⟩ : Shape)] = [] := by
      simp
    rw [hnew, List.append_nil]
    exact h6 g hg
  · intro sh hsh gid hgid
    rcases List.mem_append.mp hsh with hm | hm
    · exact h7 sh hm gid hgid
    · rw [List.mem_singleton] at hm
      rw [hm] at hgid
      simp at hgid
  · intro sh hsh hmem
    rcases List.mem_append.mp hsh with hm | hm
    · exact h8 sh hm hmem
    · rw [List.mem_singleton] at hm
      rw [hm]

theorem wf_addRectangle (s : EState) (px py : ℚ) (h : WF s) :
    WF (addRectangle s px py) :=
  wf_addShape s (SGeom.rectangle 100 50) ⟨px, py⟩ h

theorem wf_addCircle (s : EState) (px py : ℚ) (h : WF s) :
    WF (addCircle s px py) :=
  wf_addShape s (SGeom.circle 50) ⟨px, py⟩ h

theorem wf_stageClick (s : EState) (h : WF s) : WF (stageClick s) :=
  wf_set_selection s [] h (by simp) List.nodup_nil

theorem wf_setHover (s : EState) (hov : Option Nat) (h : WF s) : WF (setHover s hov) := by
  obtain ⟨h1, h2, h3, h4, h5, h6, h7, h8, h9⟩ := h
  exact ⟨h1, h2, h3, h4, h5, h6, h7, h8, h9⟩

theorem wf_clearAll (s : EState) (h : WF s) : WF (clearAll s) := by
  refine ⟨List.nodup_nil, List.nodup_nil, ?_, ?_, ?_, ?_, ?_, ?_, List.nodup_nil⟩ <;> simp [clearAll]

theorem wf_toggle_sel (s : EState) (h : WF s) (x : Nat)
    (hx : ∀ t ∈ s.shapes, t.id = x → t.groupId = none) (hnc : ¬ s.selectedIds.contains x = true) :
    WF { s with selectedIds := s.selectedIds ++ [x] } := by
  refine wf_set_selection s _ h ?_ ?_
  · intro t ht hmem
    rcases List.mem_append.mp hmem with hm | hm
    · exact h.2.2.2.2.2.2.2.1 t ht hm
    · exact hx t ht (List.mem_singleton.mp hm)
  · refine List.Nodup.append h.2.2.2.2.2.2.2.2 (List.nodup_singleton x) ?_
    intro a ha hb
    rw [List.mem_singleton] at hb
    rw [hb] at ha
    exact hnc (by simpa using ha)

theorem wf_filter_sel (s : EState) (h : WF s) (x : Nat) :
    WF { s with selectedIds := s.selectedIds.filter (fun y => y ≠ x) } := by
  refine wf_set_selection s _ h ?_ (h.2.2.2.2.2.2.2.2.filter _)
  intro t ht hmem
  exact h.2.2.2.2.2.2.2.1 t ht (List.mem_of_mem_filter hmem)

theorem wf_single_sel (s : EState) (h : WF s) (x : Nat)
    (hx : ∀ t ∈ s.shapes, t.id = x → t.groupId = none) :
    WF { s with selectedIds := [x] } := by
  refine wf_set_selection s _ h ?_ (List.nodup_singleton x)
  intro t ht hmem
  exact hx t ht (List.mem_singleton.mp hmem)

theorem wf_handleShapeClick (s : EState) (id : Nat) (shift : Bool) (h : WF s) :
    WF (handleShapeClick s id shift) := by
  rcases hfind : s.shapes.find? (fun sh => sh.id = id) with _ | sh
  · have hplain : ∀ t ∈ s.shapes, t.id = id → t.groupId = none := by
      intro t ht hc
      have hn := List.find?_eq_none.mp hfind t ht
      simp [hc] at hn
    simp only [handleShapeClick, hfind]
    split
    · split
      · exact wf_filter_sel s h id
      · next hnc => exact wf_toggle_sel s h id hplain hnc
    · exact wf_single_sel s h id hplain
  · have hsh : sh ∈ s.shapes := List.mem_of_find?_eq_some hfind
    have hshid : sh.id = id := by simpa using List.find?_some hfind
    rcases hg : sh.groupId with _ | gid
    · have hplain : ∀ t ∈ s.shapes, t.id = id → t.groupId = none := by
        intro t ht hc
        have heq : t = sh := key_inj (fun t => t.id) h.1 ht hsh (hc.trans hshid.symm)
        rw [heq, hg]
      simp only [handleShapeClick, hfind, hg]
      split
      · split
        · exact wf_filter_sel s h id
        · next hnc => exact wf_toggle_sel s h id hplain hnc
      · exact wf_single_sel s h id hplain
    · have hgr : ∀ t ∈ s.shapes, t.id = gid → t.groupId = none := by
        intro t ht hc
        exfalso
        obtain ⟨g, hgmem, hgid2⟩ := h.2.2.2.2.2.2.1 sh hsh gid (by rw [hg]; simp)
        exact h.2.2.1 t ht g hgmem (hc.trans hgid2.symm)
      simp only [handleShapeClick, hfind, hg]
      split
      · exact wf_single_sel s h gid hgr
      · split
        · exact wf_filter_sel s h gid
        · next hnc => exact wf_toggle_sel s h gid hgr hnc

theorem map_update_mem {f : Shape → Shape} (hf : ∀ x, (f x).id = x.id)
    {p : Shape → Prop} [DecidablePred p] {l : List Shape} {sh2 : Shape}
    (hm : sh2 ∈ l.map (fun t => if p t then f t else t)) :
    ∃ t ∈ l, sh2 = (if p t then f t else t) ∧ sh2.id = t.id := by
  obtain ⟨t, ht, hut⟩ := List.mem_map.mp hm
  refine ⟨t, ht, hut.symm, ?_⟩
  rw [← hut]
  by_cases hp : p t
  · rw [if_pos hp, hf]
  · rw [if_neg hp]

theorem wf_createGroupNewRun (T : Trig) (s : EState) (h : WF s) :
    WF (createGroupNew T s).1 := by
  obtain ⟨h1, h2, h3, h4, h5, h6, h7, h8, h9⟩ := h
  by_cases hlen : (shapesToGroupOf s).length < 2
  · simp only [createGroupNew]
    rw [if_pos hlen]
    exact ⟨h1, h2, h3, h4, h5, h6, h7, h8, h9⟩
  · obtain ⟨b, hb⟩ := createGroupNew_eq T s h1 (by omega)
    rw [hb]
    refine ⟨?_, ?_, ?_, ?_, ?_, ?_, ?_, ?_, List.nodup_singleton s.nextId⟩
    · rw [keys_map_update (cgMove T s) (fun x => rfl) (fun t => t ∈ shapesToGroupOf s)]
      exact h1
    · rw [List.map_append]
      refine List.Nodup.append h2 (List.nodup_singleton _) ?_
      intro a ha hbm
      rw [List.map_singleton, List.mem_singleton] at hbm
      obtain ⟨g, hg, hgid⟩ := List.mem_map.mp ha
      have hb2 : a = s.nextId := hbm
      have := h5 g hg
      omega
    · intro sh2 hsh2 g hg
      obtain ⟨t, ht, _, hid⟩ := map_update_mem (f := cgMove T s) (fun x => rfl) hsh2
      rw [hid]
      rcases List.mem_append.mp hg with hm | hm
      · exact h3 t ht g hm
      · rw [List.mem_singleton] at hm
        rw [hm]
        show t.id ≠ s.nextId
        have := h4 t ht
        omega
    · intro sh2 hsh2
      obtain ⟨t, ht, _, hid⟩ := map_update_mem (f := cgMove T s) (fun x => rfl) hsh2
      show sh2.id < s.nextId + 1
      rw [hid]
      have := h4 t ht
      omega
    · intro g hg
      show g.id < s.nextId + 1
      rcases List.mem_append.mp hg with hm | hm
      · have := h5 g hm
        omega
      · rw [List.mem_singleton] at hm
        rw [hm]
        show s.nextId < s.nextId + 1
        omega
    · intro g hg
      rcases List.mem_append.mp hg with hm | hm
      · have hcnt := length_filter_map s.shapes
          (fun t => if t ∈ shapesToGroupOf s then cgMove T s t else t)
          (fun t => t.groupId = some g.id) (fun t => t.groupId = some g.id) ?_
        · rw [hcnt]
          exact h6 g hm
        · intro t ht
          simp only []
          by_cases hmem : t ∈ shapesToGroupOf s
          · have hift : (if t ∈ shapesToGroupOf s then cgMove T s t else t) = cgMove T s t :=
              if_pos hmem
            simp only [hift]
            have hnone : t.groupId = none := by
              have := (List.mem_filter.mp hmem).2
              simp only [decide_eq_true_eq] at this
              exact this.2
            have hne : g.id ≠ s.nextId := Nat.ne_of_lt (h5 g hm)
            have hl : (cgMove T s t).groupId = some s.nextId := rfl
            simp only [hl, hnone]
            simp
            omega
          · have hift : (if t ∈ shapesToGroupOf s then cgMove T s t else t) = t := if_neg hmem
            simp only [hift]
      · rw [List.mem_singleton] at hm
        rw [hm]
        have hpid : (⟨s.nextId, ⟨cgAvgX s, cgAvgY s⟩, 0, ⟨b.minX, b.minY⟩,
            b.maxX - b.minX, b.maxY - b.minY⟩ : Group).id = s.nextId := rfl
        rw [hpid]
        have hcnt := length_filter_map s.shapes
          (fun t => if t ∈ shapesToGroupOf s then cgMove T s t else t)
          (fun t => t.groupId = some s.nextId) (fun t => decide (t ∈ shapesToGroupOf s)) ?_
        · rw [hcnt]
          have hfc : List.filter (fun t => decide (t ∈ shapesToGroupOf s)) s.shapes
              = shapesToGroupOf s := by
            have := List.filter_congr (l := s.shapes)
              (p := fun t => decide (t ∈ shapesToGroupOf s))
              (q := fun sh => decide (s.selectedIds.contains sh.id ∧ sh.groupId = none)) ?_
            · exact this
            · intro t ht
              simp only []
              by_cases hmem : t ∈ shapesToGroupOf s
              · rw [decide_eq_true hmem]
                exact ((List.mem_filter.mp hmem).2).symm
              · rw [decide_eq_false hmem]
                have hq : ¬ (decide (s.selectedIds.contains t.id ∧ t.groupId = none)) = true := by
                  intro hc
                  exact hmem (List.mem_filter.mpr ⟨ht, hc⟩)
                exact (Bool.eq_false_iff.mpr hq).symm
          rw [hfc]
          omega
        · intro t ht
          simp only []
          by_cases hmem : t ∈ shapesToGroupOf s
          · have hift : (if t ∈ shapesToGroupOf s then cgMove T s t else t) = cgMove T s t :=
              if_pos hmem
            simp only [hift, decide_eq_true hmem]
            have hl : (cgMove T s t).groupId = some s.nextId := rfl
            simp only [hl]
            simp
          · have hift : (if t ∈ shapesToGroupOf s then cgMove T s t else t) = t := if_neg hmem
            simp only [hift, decide_eq_false hmem]
            rcases hgid : t.groupId with _ | gid
            · simp
            · obtain ⟨g2, hg2, hg2id⟩ := h7 t ht gid (by rw [hgid]; simp)
              have : gid ≠ s.nextId := by
                have := h5 g2 hg2
                omega
              simp [this]
    · intro sh2 hsh2 gid hgid
      obtain ⟨t, ht, hval, _⟩ := map_update_mem (f := cgMove T s) (fun x => rfl) hsh2
      by_cases hmem : t ∈ shapesToGroupOf s
      · rw [if_pos hmem] at hval
        have hgv : sh2.groupId = some s.nextId := by rw [hval]; rfl
        rw [hgv] at hgid
        simp only [Option.toList_some, List.mem_singleton] at hgid
        refine ⟨⟨s.nextId, ⟨cgAvgX s, cgAvgY s⟩, 0, ⟨b.minX, b.minY⟩,
          b.maxX - b.minX, b.maxY - b.minY⟩, ?_, ?_⟩
        · exact List.mem_append_right _ (List.mem_singleton_self _)
        · rw [hgid]
      · rw [if_neg hmem] at hval
        rw [hval] at hgid
        obtain ⟨g2, hg2, hg2id⟩ := h7 t ht gid hgid
        exact ⟨g2, List.mem_append_left _ hg2, hg2id⟩
    · intro sh2 hsh2 hmem
      exfalso
      obtain ⟨t, ht, _, hid⟩ := map_update_mem (f := cgMove T s) (fun x => rfl) hsh2
      rw [List.mem_singleton] at hmem
      have := h4 t ht
      omega

theorem keys_map_bbox (l : List Group) (tid : Nat) (members : List Shape) :
    (l.map (fun g => if g.id = tid then updateGroupBoundingBox g members else g)).map
      (fun g => g.id) = l.map (fun g => g.id) := by
  rw [List.map_map]
  refine List.map_congr_left ?_
  intro g0 _
  simp only [Function.comp_apply]
  by_cases hc : g0.id = tid
  · rw [if_pos hc]
    exact rfl
  · rw [if_neg hc]

theorem mem_map_bbox {l : List Group} {g2 : Group} {tid : Nat} {members : List Shape}
    (h : g2 ∈ l.map (fun g => if g.id = tid then updateGroupBoundingBox g members else g)) :
    ∃ g0 ∈ l, g2.id = g0.id := by
  obtain ⟨g0, hg0, hvg⟩ := List.mem_map.mp h
  refine ⟨g0, hg0, ?_⟩
  rw [← hvg]
  by_cases hc : g0.id = tid
  · rw [if_pos hc]
    exact rfl
  · rw [if_neg hc]

theorem parent_resolves_bbox {l : List Group} {g0 : Group} {gid : Nat} (h : g0 ∈ l)
    (hid : g0.id = gid) (tid : Nat) (members : List Shape) :
    ∃ g2 ∈ l.map (fun g => if g.id = tid then updateGroupBoundingBox g members else g),
      g2.id = gid := by
  refine ⟨if g0.id = tid then updateGroupBoundingBox g0 members else g0,
    List.mem_map_of_mem _ h, ?_⟩
  by_cases hc : g0.id = tid
  · rw [if_pos hc]
    exact hid
  · rw [if_neg hc]
    exact hid

theorem wf_merge (T : Trig) (s : EState) (target : Group)
    (hwf : WF s) (hsg : selectedGroupsOf s = [target])
    (hadd : ∃ sh ∈ selectedShapesOf s, sh.groupId ≠ some target.id) :
    WF { addShapesToGroup T s target
        (((selectedShapesOf s).filter (fun sh => sh.groupId ≠ some target.id)).map
          (fun sh => sh.id)) with selectedIds := [target.id] } := by
  obtain ⟨htgm, _⟩ := selectedGroupsOf_target s target hsg
  obtain ⟨h1, h2, h3, h4, h5, h6, h7, h8, h9⟩ := hwf
  have hsubl : ((selectedShapesOf s).filter (fun sh => sh.groupId ≠ some target.id)).Sublist
      s.shapes :=
    (List.filter_sublist (selectedShapesOf s)).trans (List.filter_sublist s.shapes)
  have hidsnd : (((selectedShapesOf s).filter
      (fun sh => sh.groupId ≠ some target.id)).map (fun sh => sh.id)).Nodup :=
    h1.sublist (hsubl.map (fun sh => sh.id))
  have hresids : ∀ id ∈ ((selectedShapesOf s).filter
      (fun sh => sh.groupId ≠ some target.id)).map (fun sh => sh.id),
      ∃ sh ∈ s.shapes, sh.id = id ∧ sh.groupId = none := by
    intro id hid
    obtain ⟨sh, hshf, hshid⟩ := List.mem_map.mp hid
    have hsel1 := List.mem_filter.mp hshf
    have hne : sh.groupId ≠ some target.id := by simpa using hsel1.2
    obtain ⟨hg0, _⟩ := addable_ungrouped s target h2 h7 h8 hsg sh hsel1.1 hne
    exact ⟨sh, (List.mem_filter.mp hsel1.1).1, hshid, hg0⟩
  have hung : ∀ t ∈ s.shapes, t.id ∈ ((selectedShapesOf s).filter
      (fun sh => sh.groupId ≠ some target.id)).map (fun sh => sh.id) → t.groupId = none := by
    intro t ht hid
    obtain ⟨sh, hshm, hshid, hshg⟩ := hresids t.id hid
    have heq : sh = t := key_inj (fun t => t.id) h1 hshm ht hshid
    rw [← heq]
    exact hshg
  have hasg := addShapesToGroup_ungrouped T s target
    (((selectedShapesOf s).filter (fun sh => sh.groupId ≠ some target.id)).map
      (fun sh => sh.id)) h1 hidsnd hresids
  rw [hasg]
  refine ⟨?_, ?_, ?_, ?_, ?_, ?_, ?_, ?_, List.nodup_singleton target.id⟩
  · rw [keys_map_update (asgMoveUngrouped T target) (fun x => rfl) _]
    exact h1
  · rw [keys_map_bbox]
    exact h2
  · intro sh2 hsh2 g2 hg2
    obtain ⟨t, ht, _, hid⟩ :=
      map_update_mem (f := asgMoveUngrouped T target) (fun x => rfl) hsh2
    obtain ⟨g0, hg0, hg2id⟩ := mem_map_bbox hg2
    rw [hid, hg2id]
    exact h3 t ht g0 hg0
  · intro sh2 hsh2
    obtain ⟨t, ht, _, hid⟩ :=
      map_update_mem (f := asgMoveUngrouped T target) (fun x => rfl) hsh2
    show sh2.id < s.nextId
    rw [hid]
    exact h4 t ht
  · intro g2 hg2
    obtain ⟨g0, hg0, hg2id⟩ := mem_map_bbox hg2
    show g2.id < s.nextId
    rw [hg2id]
    exact h5 g0 hg0
  · intro g2 hg2
    obtain ⟨g0, hg0, hg2id⟩ := mem_map_bbox hg2
    rw [hg2id]
    by_cases hc : g0.id = target.id
    · rw [hc]
      have hle := length_filter_map_le s.shapes
        (fun t => if t.id ∈ ((selectedShapesOf s).filter
          (fun sh => sh.groupId ≠ some target.id)).map (fun sh => sh.id)
          then asgMoveUngrouped T target t else t)
        (fun t => t.groupId = some target.id) (fun t => t.groupId = some target.id) ?_
      · refine Nat.le_trans ?_ hle
        rw [← hc]
        exact h6 g0 hg0
      · intro t ht hq
        simp only []
        by_cases hmem : t.id ∈ ((selectedShapesOf s).filter
            (fun sh => sh.groupId ≠ some target.id)).map (fun sh => sh.id)
        · have hift : (if t.id ∈ ((selectedShapesOf s).filter
              (fun sh => sh.groupId ≠ some target.id)).map (fun sh => sh.id)
              then asgMoveUngrouped T target t else t) = asgMoveUngrouped T target t :=
            if_pos hmem
          simp only [hift]
          have hl : (asgMoveUngrouped T target t).groupId = some target.id := rfl
          simp [hl]
        · have hift : (if t.id ∈ ((selectedShapesOf s).filter
              (fun sh => sh.groupId ≠ some target.id)).map (fun sh => sh.id)
              then asgMoveUngrouped T target t else t) = t := if_neg hmem
          simp only [hift]
          exact hq
    · have hcnt := length_filter_map s.shapes
        (fun t => if t.id ∈ ((selectedShapesOf s).filter
          (fun sh => sh.groupId ≠ some target.id)).map (fun sh => sh.id)
          then asgMoveUngrouped T target t else t)
        (fun t => t.groupId = some g0.id) (fun t => t.groupId = some g0.id) ?_
      · rw [hcnt]
        exact h6 g0 hg0
      · intro t ht
        simp only []
        by_cases hmem : t.id ∈ ((selectedShapesOf s).filter
            (fun sh => sh.groupId ≠ some target.id)).map (fun sh => sh.id)
        · have hift : (if t.id ∈ ((selectedShapesOf s).filter
              (fun sh => sh.groupId ≠ some target.id)).map (fun sh => sh.id)
              then asgMoveUngrouped T target t else t) = asgMoveUngrouped T target t :=
            if_pos hmem
          simp only [hift]
          have hl : (asgMoveUngrouped T target t).groupId = some target.id := rfl
          have hn := hung t ht hmem
          simp only [hl, hn]
          simp
          exact fun hh => hc hh.symm
        · have hift : (if t.id ∈ ((selectedShapesOf s).filter
              (fun sh => sh.groupId ≠ some target.id)).map (fun sh => sh.id)
              then asgMoveUngrouped T target t else t) = t := if_neg hmem
          simp only [hift]
  · intro sh2 hsh2 gid hgid
    obtain ⟨t, ht, hval, _⟩ :=
      map_update_mem (f := asgMoveUngrouped T target) (fun x => rfl) hsh2
    by_cases hmem : t.id ∈ ((selectedShapesOf s).filter
        (fun sh => sh.groupId ≠ some target.id)).map (fun sh => sh.id)
    · rw [if_pos hmem] at hval
      have hgv : sh2.groupId = some target.id := by rw [hval]; exact rfl
      rw [hgv] at hgid
      simp only [Option.toList_some, List.mem_singleton] at hgid
      exact parent_resolves_bbox htgm hgid.symm target.id _
    · rw [if_neg hmem] at hval
      rw [hval] at hgid
      obtain ⟨g2, hg2, hg2id⟩ := h7 t ht gid hgid
      exact parent_resolves_bbox hg2 hg2id target.id _
  · intro sh2 hsh2 hmem
    exfalso
    obtain ⟨t, ht, _, hid⟩ :=
      map_update_mem (f := asgMoveUngrouped T target) (fun x => rfl) hsh2
    rw [List.mem_singleton] at hmem
    exact h3 t ht target htgm (hid ▸ hmem)

theorem wf_ungroupRun (T : Trig) (s : EState) (h : WF s) :
    WF (ungroup T s).1 := by
  obtain ⟨h1, h2, h3, h4, h5, h6, h7, h8, h9⟩ := h
  rcases hsel : s.selectedIds with _ | ⟨gid, _ | ⟨b2, rest2⟩⟩
  · simp only [ungroup, hsel]
    exact ⟨h1, h2, h3, h4, h5, h6, h7, h8, h9⟩
  · rcases hfind : s.groups.find? (fun g0 => g0.id = gid) with _ | g
    · simp only [ungroup, hsel, hfind]
      exact ⟨h1, h2, h3, h4, h5, h6, h7, h8, h9⟩
    · rw [ungroup_eq T s gid g h1 hsel hfind]
      refine ⟨?_, ?_, ?_, ?_, ?_, ?_, ?_, ?_, ?_⟩
      · rw [keys_map_update (ugDetach T s.groups g) (fun x => rfl)
          (fun t => t.groupId = some gid)]
        exact h1
      · exact h2.sublist ((List.filter_sublist s.groups).map (fun g0 => g0.id))
      · intro sh2 hsh2 g2 hg2
        obtain ⟨t, ht, _, hid⟩ :=
          map_update_mem (f := ugDetach T s.groups g) (fun x => rfl) hsh2
        rw [hid]
        exact h3 t ht g2 (List.mem_of_mem_filter hg2)
      · intro sh2 hsh2
        obtain ⟨t, ht, _, hid⟩ :=
          map_update_mem (f := ugDetach T s.groups g) (fun x => rfl) hsh2
        show sh2.id < s.nextId
        rw [hid]
        exact h4 t ht
      · intro g2 hg2
        show g2.id < s.nextId
        exact h5 g2 (List.mem_of_mem_filter hg2)
      · intro g2 hg2
        have hg2mem : g2 ∈ s.groups := List.mem_of_mem_filter hg2
        have hg2ne : g2.id ≠ gid := by
          have := (List.mem_filter.mp hg2).2
          simpa using this
        have hcnt := length_filter_map s.shapes
          (fun t => if t.groupId = some gid then ugDetach T s.groups g t else t)
          (fun t => t.groupId = some g2.id) (fun t => t.groupId = some g2.id) ?_
        · rw [hcnt]
          exact h6 g2 hg2mem
        · intro t ht
          simp only []
          by_cases hmem : t.groupId = some gid
          · have hift : (if t.groupId = some gid then ugDetach T s.groups g t else t)
                = ugDetach T s.groups g t := if_pos hmem
            simp only [hift]
            have hl : (ugDetach T s.groups g t).groupId = none := rfl
            simp only [hl, hmem]
            simp
            exact fun hh => hg2ne hh.symm
          · have hift : (if t.groupId = some gid then ugDetach T s.groups g t else t)
                = t := if_neg hmem
            simp only [hift]
      · intro sh2 hsh2 gid2 hgid
        obtain ⟨t, ht, hval, _⟩ :=
          map_update_mem (f := ugDetach T s.groups g) (fun x => rfl) hsh2
        by_cases hmem : t.groupId = some gid
        · rw [if_pos hmem] at hval
          have hgv : sh2.groupId = none := by rw [hval]; rfl
          rw [hgv] at hgid
          simp at hgid
        · rw [if_neg hmem] at hval
          rw [hval] at hgid
          obtain ⟨g2, hg2, hg2id⟩ := h7 t ht gid2 hgid
          refine ⟨g2, List.mem_filter.mpr ⟨hg2, ?_⟩, hg2id⟩
          have hne : gid2 ≠ gid := by
            intro hcc
            apply hmem
            rcases hg : t.groupId with _ | x
            · rw [hg] at hgid
              simp at hgid
            · rw [hg] at hgid
              simp only [Option.toList_some, List.mem_singleton] at hgid
              rw [← hgid, hcc]
          simp only [decide_eq_true_eq]
          rw [hg2id]
          exact hne
      · intro sh2 hsh2 hmem
        obtain ⟨t, ht, hval, hid⟩ :=
          map_update_mem (f := ugDetach T s.groups g) (fun x => rfl) hsh2
        obtain ⟨u, hu, huid⟩ := List.mem_map.mp hmem
        have humem : u ∈ s.shapes := List.mem_of_mem_filter hu
        have hueq : u = t := key_inj (fun t0 : Shape => t0.id) h1 humem ht (huid.trans hid)
        have hug : t.groupId = some gid := by
          rw [← hueq]
          have := (List.mem_filter.mp hu).2
          simpa using this
        rw [if_pos hug] at hval
        rw [hval]
        exact rfl
      · exact h1.sublist ((List.filter_sublist s.shapes).map (fun t => t.id))
  · simp only [ungroup, hsel]
    exact ⟨h1, h2, h3, h4, h5, h6, h7, h8, h9⟩

theorem wf_createGroupRun (T : Trig) (s : EState) (h : WF s) :
    WF (createGroup T s).1 := by
  by_cases hlen : s.selectedIds.length < 2
  · simp only [createGroup]
    rw [if_pos hlen]
    exact h
  · rcases hsg : selectedGroupsOf s with _ | ⟨target, _ | ⟨t2, r⟩⟩
    · rw [createGroup_not_single T s hlen (by rw [hsg]; simp)]
      exact wf_createGroupNewRun T s h
    · by_cases hadd : ∃ sh ∈ selectedShapesOf s, sh.groupId ≠ some target.id
      · rw [createGroup_merge_eq T s target h hsg hadd]
        exact wf_merge T s target h hsg hadd
      · by_cases hne : selectedShapesOf s ≠ []
        · have hempty : ((selectedShapesOf s).filter
              (fun sh => sh.groupId ≠ some target.id)).isEmpty = true := by
            rw [List.isEmpty_iff, List.filter_eq_nil_iff]
            intro sh hsh hc
            exact hadd ⟨sh, hsh, by simpa using hc⟩
          simp only [createGroup, hsg]
          rw [if_neg hlen, if_pos (Or.inr hne), if_pos hempty]
          exact h
        · push_neg at hne
          have hguard : ¬ ((∃ sh ∈ selectedShapesOf s, sh.groupId ≠ some target.id) ∨
              selectedShapesOf s ≠ []) := by
            rintro (hc | hc)
            · exact hadd hc
            · exact hc hne
          simp only [createGroup, hsg]
          rw [if_neg hlen, if_neg hguard]
          exact wf_createGroupNewRun T s h
    · rw [createGroup_not_single T s hlen (by rw [hsg]; simp)]
      exact wf_createGroupNewRun T s h

theorem reach_wf {s : EState} (h : Reach s) : WF s := by
  induction h with
  | start => exact wf_initState
  | step hr hstep ih =>
    cases hstep with
    | addRect px py => exact wf_addRectangle _ px py ih
    | addCirc px py => exact wf_addCircle _ px py ih
    | clickShape id shift => exact wf_handleShapeClick _ id shift ih
    | clickStage => exact wf_stageClick _ ih
    | hover hov => exact wf_setHover _ hov ih
    | group T => exact wf_createGroupRun T _ ih
    | ungrp T => exact wf_ungroupRun T _ ih
    | clear => exact wf_clearAll _ ih

/-- C2 — in every state reachable from the empty editor by any sequence of
user operations (adding shapes, clicking, hovering, `createGroup`, `ungroup`,
`clearAll`), every live group has at least 2 member shapes: the operations
that shrink a group's membership dissolve it rather than leave it with fewer
than 2 members. -/
theorem claim2_groups_min_two (s : EState) (h : Reach s) : groupsMin2 s := by
  obtain ⟨_, _, _, _, _, h6, _, _, _⟩ := reach_wf h
  exact h6

theorem claim2_witness :
    groupsMin2 (createGroup t0
      (handleShapeClick
        (handleShapeClick (addRectangle (addRectangle initState 0 0) 10 10) 0 true)
        1 true)).1 :=
  claim2_groups_min_two _
    (Reach.step
      (Reach.step
        (Reach.step
          (Reach.step
            (Reach.step Reach.start (Step.addRect initState 0 0))
            (Step.addRect (addRectangle initState 0 0) 10 10))
          (Step.clickShape (addRectangle (addRectangle initState 0 0) 10 10) 0 true))
        (Step.clickShape
          (handleShapeClick (addRectangle (addRectangle initState 0 0) 10 10) 0 true) 1 true))
      (Step.group
        (handleShapeClick
          (handleShapeClick (addRectangle (addRectangle initState 0 0) 10 10) 0 true)
          1 true) t0))

end Konva
